import Mathlib

/-!
# Settings resolution of the Flash player wrapper

A shallow embedding of `src/flash/static/flash.js` and `src/static/flash.js`:
the `Setting` record, `parseSettings`, `isValidUrl`, `makeOptions`, the two
descriptor lists of each script, the branch each script takes at top level and
the handlers it registers for the outcome of the player's load.

JavaScript values are a small sum type, a thrown exception is the `error` side
of `Except`, and the `result` object of `parseSettings` is its list of own
properties together with the two rules by which a plain object departs from a
dictionary: a stored key `hasOwnProperty` shadows the method the loop calls, and
an assignment to `__proto__` is taken by the inherited setter.
-/

namespace Flash

/-! ## Values and exceptions -/

/-- The JavaScript values a setting can hold: a string, a boolean or `null`. -/
inductive JSValue where
  | str (s : String)
  | bool (b : Bool)
  | null
  deriving DecidableEq, Repr

/-- The exceptions the scripts can meet. -/
inductive JSError where
  | typeError (message : String)
  | referenceError (message : String)
  deriving DecidableEq, Repr

deriving instance DecidableEq for Except

/-- JavaScript `typeof v === "boolean"`. -/
def JSValue.isBoolean : JSValue → Bool
  | .bool _ => true
  | _ => false

/-- JavaScript `v != null` (loose inequality). -/
def JSValue.isNotNull : JSValue → Bool
  | .null => false
  | _ => true

/-- JavaScript `ToString`, applied by `new URL(v)` to its argument. -/
def JSValue.toJSString : JSValue → String
  | .str s => s
  | .bool true => "true"
  | .bool false => "false"
  | .null => "null"

/-! ## The query parameters -/

/-- The `searchParams` of `new URL(window.location.href)`: the name/value pairs
of the query string, in order. -/
abbrev URLSearchParams := List (String × String)

/-- JavaScript `url.searchParams.get(name)`: the value of the first pair of that
name, `none` (JavaScript `null`) when there is none. -/
def searchParamsGet : URLSearchParams → String → Option String
  | [], _ => none
  | (k, v) :: rest, name => if k = name then some v else searchParamsGet rest name

/-! ## Plain objects -/

/-- The own properties of an object created by `{}`, in insertion order; the
prototype is `Object.prototype`. Only strings and booleans are ever stored. -/
abbrev JSObject := List (String × JSValue)

/-- The own property `key` of an object, if it has one. -/
def getOwn : JSObject → String → Option JSValue
  | [], _ => none
  | (k, v) :: rest, key => if k = key then some v else getOwn rest key

/-- JavaScript `Object.hasOwn(o, key)`. -/
def hasOwn (o : JSObject) (key : String) : Bool := (getOwn o key).isSome

/-- JavaScript `o.hasOwnProperty(key)`. The method is looked up on `o` first: an own
property named `hasOwnProperty` (a string or boolean here, never a function)
shadows `Object.prototype.hasOwnProperty` and the call throws a `TypeError`. -/
def hasOwnPropertyCall (o : JSObject) (key : String) : Except JSError Bool :=
  match getOwn o "hasOwnProperty" with
  | some _ => .error (.typeError "result.hasOwnProperty is not a function")
  | none => .ok (hasOwn o key)

/-- Replaces the value of an existing own property, or appends a new one. -/
def defineOwn : JSObject → String → JSValue → JSObject
  | [], key, v => [(key, v)]
  | (k, w) :: rest, key, v =>
    if k = key then (k, v) :: rest else (k, w) :: defineOwn rest key v

/-- JavaScript `o[key] = v` for a string or boolean `v`. For `key = "__proto__"`
the assignment reaches the accessor inherited from `Object.prototype`, whose
setter ignores a value that is neither an object nor `null`: no own property is
created. Every other key becomes (or stays) an own data property. -/
def setProperty (o : JSObject) (key : String) (v : JSValue) : JSObject :=
  if key = "__proto__" then o else defineOwn o key v

/-! ## `Setting` and `parseSettings` -/

/-- The record built by `new Setting(label, name, defaultValue, isConfigurable,
possibleValues)`. `possibleValues` is `some` for an array and `none` for anything
that is not an array. -/
structure Setting where
  label : String
  name : String
  defaultValue : JSValue
  isConfigurable : Bool
  possibleValues : Option (List JSValue)
  deriving DecidableEq, Repr

/-- The value `finalValue` holds at line 82 of `parseSettings` for one setting:
the default, replaced from the query parameter when the setting is configurable
and the parameter is present (lines 58 and 65-80). -/
def finalValue (url : URLSearchParams) (currentSetting : Setting) : JSValue :=
  if currentSetting.isConfigurable then
    match searchParamsGet url currentSetting.name with
    | some urlParam =>
      if currentSetting.defaultValue.isBoolean then
        .bool (urlParam = "on")
      else
        match currentSetting.possibleValues with
        | some possibleValues =>
          if JSValue.str urlParam ∈ possibleValues then .str urlParam
          else currentSetting.defaultValue
        | none => .str urlParam
    | none => currentSetting.defaultValue
  else currentSetting.defaultValue

/-- One turn of the loop of `parseSettings` (lines 57-84) on the object built so
far. The `console.warn` of line 61 writes to the console only. -/
def parseStep (url : URLSearchParams) (result : JSObject) (currentSetting : Setting) :
    Except JSError JSObject :=
  match hasOwnPropertyCall result currentSetting.name with
  | .error e => .error e
  | .ok true => .ok result
  | .ok false =>
    let v := finalValue url currentSetting
    if v.isNotNull then .ok (setProperty result currentSetting.name v) else .ok result

/-- The loop of `parseSettings` from a given `result`. -/
def parseLoop (url : URLSearchParams) : JSObject → List Setting → Except JSError JSObject
  | result, [] => .ok result
  | result, currentSetting :: rest =>
    match parseStep url result currentSetting with
    | .error e => .error e
    | .ok result1 => parseLoop url result1 rest

/-- JavaScript `parseSettings(params)` with the page's query parameters `url`. -/
def parseSettings (params : List Setting) (url : URLSearchParams) : Except JSError JSObject :=
  parseLoop url [] params

/-! ## `new URL(...)` and `isValidUrl` -/

/-- What the scripts read of a URL object: its `protocol`, the scheme followed
by a colon. -/
structure URLRecord where
  protocol : String
  deriving DecidableEq, Repr

/-- A C0 control or space: U+0000 to U+0020. -/
def isC0ControlOrSpace (c : Char) : Bool := c.toNat ≤ 0x20

/-- An ASCII tab or newline: U+0009, U+000A or U+000D. -/
def isAsciiTabOrNewline (c : Char) : Bool := c.toNat = 0x09 || c.toNat = 0x0A || c.toNat = 0x0D

/-- An ASCII letter. -/
def isAsciiAlpha (c : Char) : Bool :=
  (0x41 ≤ c.toNat && c.toNat ≤ 0x5A) || (0x61 ≤ c.toNat && c.toNat ≤ 0x7A)

/-- An ASCII digit. -/
def isAsciiDigit (c : Char) : Bool := 0x30 ≤ c.toNat && c.toNat ≤ 0x39

/-- The URL parser's first step: leading and trailing C0 controls and spaces are
removed, then every ASCII tab or newline. -/
def urlPreprocess (input : List Char) : List Char :=
  (((input.dropWhile isC0ControlOrSpace).reverse.dropWhile isC0ControlOrSpace).reverse).filter
    (fun c => !isAsciiTabOrNewline c)

/-- The parser's scheme state: letters, digits, `+`, `-` and `.` are appended in
lower case to the buffer; a colon ends the scheme and leaves the rest of the
input; anything else, the end of the input included, means there is no scheme. -/
def schemeState : List Char → List Char → Option (String × List Char)
  | _, [] => none
  | buffer, c :: rest =>
    if isAsciiAlpha c || isAsciiDigit c || c = '+' || c = '-' || c = '.' then
      schemeState (buffer ++ [c.toLower]) rest
    else if c = ':' then some (String.mk buffer, rest)
    else none

/-- The parser's scheme start state: a scheme begins with an ASCII letter. -/
def schemeStartState : List Char → Option (String × List Char)
  | [] => none
  | c :: rest => if isAsciiAlpha c then schemeState [c.toLower] rest else none

/-- JavaScript `new URL(v)`, without a base. The argument is converted to a
string. An input that has no scheme is a parse failure, since there is no base
to resolve it against: a `TypeError`. Otherwise the parser goes on with what
follows the colon (authority, host, port, path, query, fragment): `afterScheme`
says, for the scheme and the rest of the input, whether that succeeds. It stands
for the platform's parser and is a parameter throughout. The scheme is not
changed after the scheme state. -/
def URL_new (afterScheme : String → List Char → Bool) (v : JSValue) : Except JSError URLRecord :=
  match schemeStartState (urlPreprocess v.toJSString.toList) with
  | none => .error (.typeError "Invalid URL")
  | some (scheme, rest) =>
    if afterScheme scheme rest then .ok { protocol := scheme ++ ":" }
    else .error (.typeError "Invalid URL")

/-- JavaScript `isValidUrl(urlString)`: the `try` block returns the comparison of
the protocol, the `catch` block returns `false` for whatever was thrown. -/
def isValidUrl (afterScheme : String → List Char → Bool) (urlString : JSValue) :
    Except JSError Bool :=
  match URL_new afterScheme urlString with
  | .ok u => .ok (u.protocol = "https:" || u.protocol = "http:")
  | .error _ => .ok false

/-! ## The descriptor lists and the top-level branch -/

/-- The constant `defUrl`. -/
def defUrl : String := ""

/-- The array `sharedSettings`: empty in both scripts. -/
def sharedSettings : List Setting := []

/-- The array `uiSettings` after `sharedSettings` is pushed onto it; the same in
both scripts. -/
def uiSettings : List Setting :=
  [ ⟨"Ajuster à l'écran", "fit", .bool false, true, none⟩,
    ⟨"Forcer l'AutoPlay", "autoplay", .bool false, true, none⟩ ] ++ sharedSettings

/-- The branch a script takes at top level. -/
inductive Path where
  | launch
  | form
  | error
  deriving DecidableEq, Repr

/-- The top level of a script from `parseSettings(ruffleSettings)` to the choice
of the branch: `swf` is the own property `url` of `ruffleConfig` when there is
one and `defUrl` otherwise; the player is launched when `isValidUrl(swf)`, the
form is built when `swf === defUrl`, and the error message is shown otherwise. -/
def topLevel (ruffleSettings : List Setting) (afterScheme : String → List Char → Bool)
    (url : URLSearchParams) : Except JSError Path :=
  match parseSettings ruffleSettings url with
  | .error e => .error e
  | .ok ruffleConfig =>
    match parseSettings uiSettings url with
    | .error e => .error e
    | .ok _customConfig =>
      let swf : JSValue :=
        match getOwn ruffleConfig "url" with
        | some v => v
        | none => .str defUrl
      match isValidUrl afterScheme swf with
      | .error e => .error e
      | .ok true => .ok .launch
      | .ok false => if swf = .str defUrl then .ok .form else .ok .error

/-! ## The DOM, `makeOptions` and the player's load -/

/-- An element without children, as the scripts build it: its tag and the
properties assigned to it, in the order of the assignments. -/
structure DomLeaf where
  tag : String
  props : List (String × JSValue)
  deriving DecidableEq, Repr

/-- An element with the children appended to it. -/
structure DomElement where
  tag : String
  props : List (String × JSValue)
  children : List DomLeaf
  deriving DecidableEq, Repr

/-- An element without children, seen as a child of a node. -/
def DomLeaf.toElement (e : DomLeaf) : DomElement :=
  { tag := e.tag, props := e.props, children := [] }

/-- The constant `cssClassForLabels`. -/
def cssClassForLabels : String := "labelOpt"

/-- The constant `cssClassForCheckboxes`. -/
def cssClassForCheckboxes : String := "checkboxOpt"

/-- The constant `cssClassForDivs`. -/
def cssClassForDivs : String := "optDiv"

/-- The `input` element `makeOptions` builds for a setting whose default is
`false` (lines 110-124): the assignment of `checked` is not reached, and the two
last properties are set when the setting is not configurable. -/
def optionElement (currentSetting : Setting) : DomLeaf :=
  { tag := "input",
    props :=
      [ ("id", .str (currentSetting.name ++ "Checkbox")),
        ("name", .str currentSetting.name),
        ("type", .str "checkbox"),
        ("value", .str "on"),
        ("className", .str cssClassForCheckboxes) ] ++
      (if currentSetting.isConfigurable then []
       else [("disabled", .str "disabled"), ("readOnly", .bool true)]) }

/-- The `label` element `makeOptions` builds for a setting (lines 131-135). The
property that receives the id of the `input` is `htmlFor` in
`src/flash/static/flash.js` and `for` in `src/static/flash.js`. -/
def optionLabel (forProperty : String) (currentSetting : Setting) : DomLeaf :=
  { tag := "label",
    props :=
      [ (forProperty, .str (currentSetting.name ++ "Checkbox")),
        ("id", .str (currentSetting.name ++ "Label")),
        ("innerHTML", .str currentSetting.label),
        ("className", .str cssClassForLabels) ] }

/-- What `makeOptions` appends to `node` for one option (lines 137-149): a `div`
holding the label and the checkbox when `createDiv` is set, the label and the
checkbox themselves otherwise. -/
def optionNodes (forProperty : String) (createDiv : Bool) (currentSetting : Setting) :
    List DomElement :=
  if createDiv then
    [ { tag := "div",
        props :=
          [ ("id", .str (currentSetting.name ++ "OptDiv")),
            ("className", .str cssClassForDivs) ],
        children := [optionLabel forProperty currentSetting, optionElement currentSetting] } ]
  else
    [ (optionLabel forProperty currentSetting).toElement,
      (optionElement currentSetting).toElement ]

/-- One turn of the loop of `makeOptions` on the children `node` has so far. A
setting without a label is passed over; one whose default is no boolean gets the
warning of line 127 and `continue`; for a boolean default `true` line 118 reads
the identifier `checked`, which no script declares, and a `ReferenceError` is
thrown before anything is appended. The `console` calls write to the console
only. -/
def makeOptionsStep (forProperty : String) (createDiv : Bool) (node : List DomElement)
    (currentSetting : Setting) : Except JSError (List DomElement) :=
  if currentSetting.label.length > 0 then
    match currentSetting.defaultValue with
    | .bool true => .error (.referenceError "checked is not defined")
    | .bool false => .ok (node ++ optionNodes forProperty createDiv currentSetting)
    | _ => .ok node
  else .ok node

/-- JavaScript `makeOptions(node, settings, createDiv)`: the children of `node`
when the loop ends, or the children appended before the exception together with
the exception. -/
def makeOptions (forProperty : String) (createDiv : Bool) :
    List DomElement → List Setting → List DomElement × Option JSError
  | node, [] => (node, none)
  | node, currentSetting :: rest =>
    match makeOptionsStep forProperty createDiv node currentSetting with
    | .error e => (node, some e)
    | .ok node1 => makeOptions forProperty createDiv node1 rest

/-- What the launch branch changes of the page: the text of the document's
`title` element, which an assignment to `document.title` replaces with the
assigned string as it is; the children of the container; and the number of calls
of `player.load`. Style assignments are left out. -/
structure PageState where
  title : String
  container : List DomElement
  loads : Nat
  deriving DecidableEq, Repr

/-- ASCII whitespace: U+0009, U+000A, U+000C, U+000D or U+0020. -/
def isAsciiWhitespace (c : Char) : Bool :=
  c.toNat = 0x09 || c.toNat = 0x0A || c.toNat = 0x0C || c.toNat = 0x0D || c.toNat = 0x20

/-- Every run of ASCII whitespace is replaced by one space. The flag says that
the character before was whitespace, so that the run has its space already. -/
def collapseWhitespace : Bool → List Char → List Char
  | _, [] => []
  | afterWhitespace, c :: rest =>
    if isAsciiWhitespace c then
      if afterWhitespace then collapseWhitespace true rest
      else ' ' :: collapseWhitespace true rest
    else c :: collapseWhitespace false rest

/-- Trailing ASCII whitespace is removed. -/
def stripTrailing : List Char → List Char
  | [] => []
  | c :: rest =>
    if isAsciiWhitespace c && (stripTrailing rest).isEmpty then [] else c :: stripTrailing rest

/-- The platform's "strip and collapse ASCII whitespace": runs of whitespace
become one space, then leading and trailing whitespace is removed. -/
def stripAndCollapse (s : List Char) : List Char :=
  stripTrailing ((collapseWhitespace false s).dropWhile isAsciiWhitespace)

/-- What `document.title` reads when the `title` element holds `text`: the text
with its ASCII whitespace stripped and collapsed. -/
def readTitle (text : String) : String := String.mk (stripAndCollapse text.toList)

/-- JavaScript `document.title`, read: the title the page shows. -/
def documentTitle (st : PageState) : String := readTitle st.title

/-- What the player reports after `load` was called: the event `loadedmetadata`,
the promise fulfilled, or the promise rejected. -/
inductive PlayerEvent where
  | loadedmetadata
  | fulfilled
  | rejected
  deriving DecidableEq, Repr

/-- The element `ruffle.createPlayer()` returns. -/
def playerElement : DomElement := { tag := "ruffle-player", props := [], children := [] }

/-- JavaScript `swf.substring(swf.lastIndexOf('/') + 1)` on the characters of
`swf`: what follows the last slash, and all of it when there is no slash. -/
def afterLastSlash : List Char → List Char
  | [] => []
  | c :: rest =>
    if '/' ∈ rest then afterLastSlash rest
    else if c = '/' then rest
    else c :: rest

/-- The statements `let newTitle = ...; if(newTitle !== "") document.title = ...`
that both scripts run once the file is loaded: the assignment puts the string
into the `title` element, and `documentTitle` is what the page then shows. -/
def setFileTitle (baseTitle swf : String) (st : PageState) : PageState :=
  let newTitle := String.mk (afterLastSlash swf.toList)
  if newTitle ≠ "" then { st with title := newTitle ++ " - " ++ baseTitle } else st

/-- The page after a list of player events, each given to the script's handler. -/
def runEvents (handler : PlayerEvent → PageState → PageState) :
    List PlayerEvent → PageState → PageState
  | [], st => st
  | e :: rest, st => runEvents handler rest (handler e st)

end Flash

/-! ## `src/flash/static/flash.js` -/

namespace FlashStatic
open Flash

/-- The array `ruffleSettings` of `src/flash/static/flash.js` (lines 174-191),
after `sharedSettings` is pushed onto it. -/
def ruffleSettings : List Setting :=
  [ ⟨"Accès réseau", "allowNetworking", .str "none", false,
      some [.str "all", .str "internal", .str "none"]⟩,
    ⟨"Autoriser l'accès à la page", "allowScriptAccess", .bool false, false, none⟩,
    ⟨"AutoPlay", "autoplay", .str "auto", true, some [.str "auto", .str "off", .str "on"]⟩,
    ⟨"Couleur d'arrière-plan", "backgroundColor", .str "#000000", false, none⟩,
    ⟨"Privilégier Adobe Flash", "favorFlash", .bool false, false, none⟩,
    ⟨"Letterboxing en plein écran", "letterbox", .str "off", false,
      some [.str "fullscreen", .str "off", .str "on"]⟩,
    ⟨"Menu multimédia dans le menu contextuel", "menu", .bool true, true, none⟩,
    ⟨"Autoriser l'ouverture de liens externes", "openUrlMode", .str "confirm", false,
      some [.str "allow", .str "confirm", .str "deny"]⟩,
    ⟨"Remplacer les embeds Flash", "polyfills", .bool false, false, none⟩,
    ⟨"Qualité", "quality", .str "best", true,
      some [.str "low", .str "medium", .str "high", .str "best"]⟩,
    ⟨"Échelle", "scale", .str "showAll", true,
      some [.str "showAll", .str "noborder", .str "exactfit", .str "noscale"]⟩,
    ⟨"Autoriser le téléchargement du SWF", "showSwfDownload", .bool true, false, none⟩,
    ⟨"Montrer l'écran de démarrage", "showSplashScreen", .bool true, false, none⟩,
    ⟨"Afficher l'indicateur « Cliquer pour jouer le son »", "unmuteOverlay", .str "hidden", true,
      some [.str "visible", .str "hidden"]⟩,
    ⟨"", "url", .str defUrl, true, none⟩ ] ++ sharedSettings

/-- The branch `src/flash/static/flash.js` takes (lines 203-322). -/
def scriptPath (afterScheme : String → List Char → Bool) (url : URLSearchParams) :
    Except JSError Path :=
  topLevel ruffleSettings afterScheme url

/-- The array `uiSettings` as `src/flash/static/flash.js` writes it (lines
193-197). -/
def uiSettings : List Setting :=
  [ ⟨"Ajuster à l'écran", "fit", .bool false, true, none⟩,
    ⟨"Forcer l'AutoPlay", "autoplay", .bool false, true, none⟩ ] ++ sharedSettings

/-- The function `makeOptions` of `src/flash/static/flash.js` (lines 99-152). -/
def makeOptions (node : List DomElement) (settings : List Setting) (createDiv : Bool) :
    List DomElement × Option JSError :=
  Flash.makeOptions "htmlFor" createDiv node settings

/-- The element `epicFail` the rejection handler builds (lines 248-251). -/
def epicFail : DomElement :=
  { tag := "h1",
    props :=
      [ ("id", .str "ruffleError"),
        ("innerHTML", .str "Une erreur est survenue pendant le chargement du lecteur."),
        ("className", .str "errorText") ],
    children := [] }

/-- The listener of the window's `load` event up to the call of `player.load`
(lines 213-243): the player is appended to the container and `load` is called
once. -/
def onWindowLoad (st : PageState) : PageState :=
  { st with container := st.container ++ [playerElement], loads := st.loads + 1 }

/-- The handlers `src/flash/static/flash.js` registers (lines 228-253): the
listener of `loadedmetadata` sets the title from the file name, the `then`
handler does nothing, and the `catch` handler sets the error title and inserts
`epicFail` before the first child of the container. -/
def onPlayerEvent (baseTitle swf : String) : PlayerEvent → PageState → PageState
  | .loadedmetadata, st => setFileTitle baseTitle swf st
  | .fulfilled, st => st
  | .rejected, st =>
    { st with title := "Erreur - " ++ baseTitle, container := epicFail :: st.container }

end FlashStatic

/-! ## `src/static/flash.js` -/

namespace Static
open Flash

/-- The array `ruffleSettings` of `src/static/flash.js` (lines 171-188), after
`sharedSettings` is pushed onto it: `scale` is not configurable here. -/
def ruffleSettings : List Setting :=
  [ ⟨"Accès réseau", "allowNetworking", .str "none", false,
      some [.str "all", .str "internal", .str "none"]⟩,
    ⟨"Autoriser l'accès à la page", "allowScriptAccess", .bool false, false, none⟩,
    ⟨"AutoPlay", "autoplay", .str "auto", true, some [.str "auto", .str "off", .str "on"]⟩,
    ⟨"Couleur d'arrière-plan", "backgroundColor", .str "#000000", false, none⟩,
    ⟨"Privilégier Adobe Flash", "favorFlash", .bool false, false, none⟩,
    ⟨"Letterboxing en plein écran", "letterbox", .str "off", false,
      some [.str "fullscreen", .str "off", .str "on"]⟩,
    ⟨"Menu multimédia dans le menu contextuel", "menu", .bool true, true, none⟩,
    ⟨"Autoriser l'ouverture de liens externes", "openUrlMode", .str "confirm", false,
      some [.str "allow", .str "confirm", .str "deny"]⟩,
    ⟨"Remplacer les embeds Flash", "polyfills", .bool false, false, none⟩,
    ⟨"Qualité", "quality", .str "best", true,
      some [.str "low", .str "medium", .str "high", .str "best"]⟩,
    ⟨"Échelle", "scale", .str "showAll", false,
      some [.str "showAll", .str "noborder", .str "exactfit", .str "noscale"]⟩,
    ⟨"Autoriser le téléchargement du SWF", "showSwfDownload", .bool true, false, none⟩,
    ⟨"Montrer l'écran de démarrage", "showSplashScreen", .bool true, false, none⟩,
    ⟨"Afficher l'indicateur « Cliquer pour jouer le son »", "unmuteOverlay", .str "hidden", true,
      some [.str "visible", .str "hidden"]⟩,
    ⟨"", "url", .str defUrl, true, none⟩ ] ++ sharedSettings

/-- The branch `src/static/flash.js` takes (lines 200-281). -/
def scriptPath (afterScheme : String → List Char → Bool) (url : URLSearchParams) :
    Except JSError Path :=
  topLevel ruffleSettings afterScheme url

/-- The array `uiSettings` as `src/static/flash.js` writes it (lines 190-194). -/
def uiSettings : List Setting :=
  [ ⟨"Ajuster à l'écran", "fit", .bool false, true, none⟩,
    ⟨"Forcer l'AutoPlay", "autoplay", .bool false, true, none⟩ ] ++ sharedSettings

/-- The function `makeOptions` of `src/static/flash.js` (lines 99-155). -/
def makeOptions (node : List DomElement) (settings : List Setting) (createDiv : Bool) :
    List DomElement × Option JSError :=
  Flash.makeOptions "for" createDiv node settings

/-- The listener of the window's `load` event up to the call of `player.load`
(lines 214-225): the player is appended to the container and `load` is called
once. -/
def onWindowLoad (st : PageState) : PageState :=
  { st with container := st.container ++ [playerElement], loads := st.loads + 1 }

/-- The handlers `src/static/flash.js` registers (lines 225-232): the `then`
handler sets the title from the file name, and the `catch` handler is empty but
for the comment that the title is not touched. The script has no listener of
`loadedmetadata`. -/
def onPlayerEvent (baseTitle swf : String) : PlayerEvent → PageState → PageState
  | .loadedmetadata, st => st
  | .fulfilled, st => setFileTitle baseTitle swf st
  | .rejected, st => st

end Static

/-! ## Notions the statements use -/

namespace Flash

/-- A property name for which a plain object behaves as a dictionary. -/
def OrdinaryName (name : String) : Prop :=
  name ≠ "hasOwnProperty" ∧ name ≠ "__proto__"

instance (name : String) : Decidable (OrdinaryName name) := by
  unfold OrdinaryName; infer_instance

/-- The value the loop stores under `key` when it starts from an empty object and
never throws: the final value of the first setting of that name whose final value
is not `null`. -/
def firstStored (url : URLSearchParams) : List Setting → String → Option JSValue
  | [], _ => none
  | s :: rest, key =>
    if s.name = key ∧ (finalValue url s).isNotNull = true then some (finalValue url s)
    else firstStored url rest key

/-- The resolved player setting `url`: the property `url` of the mapping, and the
empty default when the mapping has none. -/
def resolvedUrl (ruffleConfig : JSObject) : JSValue :=
  match getOwn ruffleConfig "url" with
  | some v => v
  | none => .str defUrl

/-- The player configuration the scenario of the demo file expects. -/
def demoConfig : JSObject :=
  [ ("allowNetworking", .str "none"), ("allowScriptAccess", .bool false),
    ("autoplay", .str "auto"), ("backgroundColor", .str "#000000"),
    ("favorFlash", .bool false), ("letterbox", .str "off"), ("menu", .bool true),
    ("openUrlMode", .str "confirm"), ("polyfills", .bool false), ("quality", .str "medium"),
    ("scale", .str "showAll"), ("showSwfDownload", .bool true),
    ("showSplashScreen", .bool true), ("unmuteOverlay", .str "hidden"),
    ("url", .str "https://example.org/demo.swf") ]

/-- The query parameters of `?quality=medium&menu=on&url=https://example.org/demo.swf`. -/
def demoQuery : URLSearchParams :=
  [("quality", "medium"), ("menu", "on"), ("url", "https://example.org/demo.swf")]

/-- The query parameters of a page without a query string. -/
def emptyQuery : URLSearchParams := []

/-- The query parameters of `?url=`. -/
def emptyUrlQuery : URLSearchParams := [("url", "")]

/-- The query parameters of `?url=not-a-url`. -/
def notAUrlQuery : URLSearchParams := [("url", "not-a-url")]

/-- A stand-in for the rest of the platform's parser that accepts whatever follows
a scheme; it instantiates the statements that are made for every such parser. -/
def acceptRest : String → List Char → Bool := fun _ _ => true

/-- The list a claim compares with: every setting whose name was already seen
earlier in the list is removed. -/
def dropSeen : List String → List Setting → List Setting
  | _, [] => []
  | seen, s :: rest =>
    if s.name ∈ seen then dropSeen seen rest else s :: dropSeen (s.name :: seen) rest

/-- The list without its later settings of an already seen name. -/
def withoutLaterDuplicates (params : List Setting) : List Setting := dropSeen [] params

/-- The query parameters of `?autoplay=on`, what a checked checkbox submits. -/
def autoplayOnQuery : URLSearchParams := [("autoplay", "on")]

/-- The query parameters of `?allowNetworking=all`. -/
def allowNetworkingQuery : URLSearchParams := [("allowNetworking", "all")]

/-- The query parameters of `?scale=noborder`. -/
def scaleQuery : URLSearchParams := [("scale", "noborder")]

/-- The query parameters of `?url=https://example.org/Erreur`. -/
def erreurQuery : URLSearchParams := [("url", "https://example.org/Erreur")]

/-- The query parameters of `?url=https://example.org/Erreur%20`: the url ends
with a space. -/
def erreurSpaceQuery : URLSearchParams := [("url", "https://example.org/Erreur ")]

/-- The kinds of setting the specification tells apart. -/
inductive SettingKind where
  | boolean
  | enumeration (values : List JSValue)
  | freeText
  deriving DecidableEq, Repr

/-- The kind of a setting in the code, by the tests of lines 68 and 71: a boolean
default, else an array of possible values, else free text. -/
def kindOf (s : Setting) : SettingKind :=
  if s.defaultValue.isBoolean then .boolean
  else
    match s.possibleValues with
    | some values => .enumeration values
    | none => .freeText

/-- The player-facing settings as section 6 of the specification lists them: the
name, the kind, and whether the entry is free of the mark "not configurable". -/
def specPlayerSettings : List (String × SettingKind × Bool) :=
  [ ("allowNetworking", .enumeration [.str "all", .str "internal", .str "none"], true),
    ("allowScriptAccess", .boolean, false),
    ("autoplay", .enumeration [.str "auto", .str "off", .str "on"], true),
    ("backgroundColor", .freeText, false),
    ("favorFlash", .boolean, false),
    ("letterbox", .enumeration [.str "fullscreen", .str "off", .str "on"], false),
    ("menu", .boolean, true),
    ("openUrlMode", .enumeration [.str "allow", .str "confirm", .str "deny"], false),
    ("polyfills", .boolean, false),
    ("quality", .enumeration [.str "low", .str "medium", .str "high", .str "best"], true),
    ("scale", .enumeration [.str "showAll", .str "noborder", .str "exactfit", .str "noscale"],
      true),
    ("showSwfDownload", .boolean, false),
    ("showSplashScreen", .boolean, false),
    ("unmuteOverlay", .enumeration [.str "visible", .str "hidden"], true),
    ("url", .freeText, true) ]

/-- The names and kinds of a descriptor list, in order. -/
def namesAndKinds (params : List Setting) : List (String × SettingKind) :=
  params.map (fun s => (s.name, kindOf s))

/-- The names of the settings of a list that are not configurable, in order. -/
def notConfigurable (params : List Setting) : List String :=
  (params.filter (fun s => !s.isConfigurable)).map Setting.name

/-- The settings `makeOptions` builds an option for when it does not throw: a
label that is not empty and a boolean default. -/
def getsOption (s : Setting) : Bool := decide (s.label ≠ "") && s.defaultValue.isBoolean

/-- A setting at which `makeOptions` throws: a label that is not empty and the
boolean default `true`. -/
def readsChecked (s : Setting) : Bool :=
  decide (s.label ≠ "") && decide (s.defaultValue = .bool true)

/-- The nodes `makeOptions` appends for a list of settings when it goes through
all of it: those of `optionNodes` for each setting that gets an option. -/
def optionsOf (forProperty : String) (createDiv : Bool) : List Setting → List DomElement
  | [] => []
  | s :: rest =>
    (if getsOption s then optionNodes forProperty createDiv s else []) ++
      optionsOf forProperty createDiv rest

/-- The string the rejection handler of `src/flash/static/flash.js` assigns to
`document.title`; the error title the page shows is `readTitle` of it. -/
def errorTitle (baseTitle : String) : String := "Erreur - " ++ baseTitle

/-- The file name both scripts take from `swf`: what follows its last slash. -/
def fileName (swf : String) : String := String.mk (afterLastSlash swf.toList)

/-- Whether a text ends in ASCII whitespace; the flag answers for the empty text. -/
def endsInWhitespace : Bool → List Char → Bool
  | w, [] => w
  | _, c :: rest => endsInWhitespace (isAsciiWhitespace c) rest

end Flash

/-! ## Lemmas on objects and on the loop -/

namespace Flash

theorem getOwn_defineOwn (o : JSObject) (key : String) (v : JSValue) (k : String) :
    getOwn (defineOwn o key v) k = if key = k then some v else getOwn o k := by
  induction o with
  | nil => simp [defineOwn, getOwn]
  | cons p rest ih =>
    obtain ⟨a, w⟩ := p
    by_cases h : a = key
    · subst h
      by_cases hk : a = k <;> simp [defineOwn, getOwn, hk]
    · by_cases hk : key = k
      · subst hk
        simp [defineOwn, getOwn, h, ih]
      · by_cases hak : a = k
        · subst hak
          simp [defineOwn, getOwn, h, hk]
        · simp [defineOwn, getOwn, h, hk, hak, ih]

theorem getOwn_setProperty (o : JSObject) (key : String) (v : JSValue) (k : String) :
    getOwn (setProperty o key v) k =
      if key = "__proto__" then getOwn o k else if key = k then some v else getOwn o k := by
  unfold setProperty
  by_cases h : key = "__proto__" <;> simp [h, getOwn_defineOwn]

/-- A turn of the loop never changes a property the object already has. -/
theorem parseStep_keeps (url : URLSearchParams) (r r1 : JSObject) (s : Setting)
    (h : parseStep url r s = .ok r1) (k : String) (v : JSValue) (hk : getOwn r k = some v) :
    getOwn r1 k = some v := by
  unfold parseStep hasOwnPropertyCall at h
  cases hm : getOwn r "hasOwnProperty" with
  | some w => simp [hm] at h
  | none =>
    simp only [hm] at h
    cases hn : hasOwn r s.name with
    | true => simp [hn] at h; subst h; exact hk
    | false =>
      simp only [hn] at h
      by_cases hv : (finalValue url s).isNotNull = true
      · simp [hv] at h
        subst h
        rw [getOwn_setProperty]
        by_cases hp : s.name = "__proto__"
        · simp [hp, hk]
        · have hne : s.name ≠ k := by
            intro e
            subst e
            simp [hasOwn, hk] at hn
          simp [hp, hne, hk]
      · simp [hv] at h
        subst h
        exact hk

/-- A turn of the loop stores nothing under another name than the setting's. -/
theorem parseStep_other (url : URLSearchParams) (r r1 : JSObject) (s : Setting)
    (h : parseStep url r s = .ok r1) (k : String) (hk : s.name ≠ k) :
    getOwn r1 k = getOwn r k := by
  unfold parseStep hasOwnPropertyCall at h
  cases hm : getOwn r "hasOwnProperty" with
  | some w => simp [hm] at h
  | none =>
    simp only [hm] at h
    cases hn : hasOwn r s.name with
    | true => simp [hn] at h; subst h; rfl
    | false =>
      simp only [hn] at h
      by_cases hv : (finalValue url s).isNotNull = true
      · simp [hv] at h
        subst h
        rw [getOwn_setProperty]
        simp [hk]
      · simp [hv] at h
        subst h
        rfl

/-- What a turn of the loop leaves under the setting's own name when the object
had no such property: nothing, or the setting's final value. -/
theorem parseStep_own (url : URLSearchParams) (r r1 : JSObject) (s : Setting)
    (h : parseStep url r s = .ok r1) (hk : getOwn r s.name = none) :
    getOwn r1 s.name =
      if s.name = "__proto__" ∨ (finalValue url s).isNotNull = false then none
      else some (finalValue url s) := by
  unfold parseStep hasOwnPropertyCall at h
  cases hm : getOwn r "hasOwnProperty" with
  | some w => simp [hm] at h
  | none =>
    simp only [hm] at h
    have hn : hasOwn r s.name = false := by simp [hasOwn, hk]
    simp only [hn] at h
    by_cases hv : (finalValue url s).isNotNull = true
    · simp [hv] at h
      subst h
      rw [getOwn_setProperty]
      by_cases hp : s.name = "__proto__"
      · simp [hp, ← hk]
      · simp [hp, hv]
    · simp [hv] at h
      subst h
      simp at hv
      simp [hv, hk]

theorem parseLoop_append (url : URLSearchParams) (xs ys : List Setting) (r : JSObject) :
    parseLoop url r (xs ++ ys) =
      match parseLoop url r xs with
      | .error e => .error e
      | .ok r1 => parseLoop url r1 ys := by
  induction xs generalizing r with
  | nil => simp [parseLoop]
  | cons s rest ih =>
    simp only [List.cons_append, parseLoop]
    cases parseStep url r s with
    | error e => simp
    | ok r1 => simp [ih]

/-- The loop never changes a property the object already has. -/
theorem parseLoop_keeps (url : URLSearchParams) (params : List Setting) (r r1 : JSObject)
    (h : parseLoop url r params = .ok r1) (k : String) (v : JSValue) (hk : getOwn r k = some v) :
    getOwn r1 k = some v := by
  induction params generalizing r with
  | nil => simp [parseLoop] at h; subst h; exact hk
  | cons s rest ih =>
    simp only [parseLoop] at h
    cases hs : parseStep url r s with
    | error e => simp [hs] at h
    | ok r2 =>
      simp only [hs] at h
      exact ih r2 h (parseStep_keeps url r r2 s hs k v hk)

/-- The loop stores nothing under a name all of whose settings end with `null`. -/
theorem parseLoop_absent (url : URLSearchParams) (params : List Setting) (r r1 : JSObject)
    (h : parseLoop url r params = .ok r1) (k : String) (hk : getOwn r k = none)
    (hnull : ∀ s ∈ params, s.name = k → finalValue url s = .null) :
    getOwn r1 k = none := by
  induction params generalizing r with
  | nil => simp [parseLoop] at h; subst h; exact hk
  | cons s rest ih =>
    simp only [parseLoop] at h
    cases hs : parseStep url r s with
    | error e => simp [hs] at h
    | ok r2 =>
      simp only [hs] at h
      refine ih r2 h ?_ (fun t ht => hnull t (List.mem_cons_of_mem _ ht))
      by_cases hn : s.name = k
      · subst hn
        rw [parseStep_own url r r2 s hs hk]
        simp [hnull s (List.mem_cons_self _ _) rfl, JSValue.isNotNull]
      · rw [parseStep_other url r r2 s hs k hn]
        exact hk

/-- The loop never gives the object an own property `__proto__`. -/
theorem parseLoop_never_proto (url : URLSearchParams) (params : List Setting) (r r1 : JSObject)
    (h : parseLoop url r params = .ok r1) (hr : getOwn r "__proto__" = none) :
    getOwn r1 "__proto__" = none := by
  induction params generalizing r with
  | nil => simp [parseLoop] at h; subst h; exact hr
  | cons s rest ih =>
    simp only [parseLoop] at h
    cases hs : parseStep url r s with
    | error e => simp [hs] at h
    | ok r2 =>
      simp only [hs] at h
      refine ih r2 h ?_
      by_cases hn : s.name = "__proto__"
      · have hown := parseStep_own url r r2 s hs (by rw [hn]; exact hr)
        rw [hn] at hown
        simpa using hown
      · rw [parseStep_other url r r2 s hs "__proto__" hn]
        exact hr

theorem parseSettings_never_proto (params : List Setting) (url : URLSearchParams) (r : JSObject)
    (h : parseSettings params url = .ok r) : getOwn r "__proto__" = none :=
  parseLoop_never_proto url params [] r h rfl

/-- With ordinary names the loop never throws, and it leaves under each name
what the object had there, or else what `firstStored` says. -/
theorem parseLoop_ordinary (url : URLSearchParams) (params : List Setting) (r : JSObject)
    (hr : getOwn r "hasOwnProperty" = none) (hord : ∀ s ∈ params, OrdinaryName s.name) :
    ∃ r1, parseLoop url r params = .ok r1 ∧ getOwn r1 "hasOwnProperty" = none ∧
      ∀ k, getOwn r1 k = (getOwn r k).orElse (fun _ => firstStored url params k) := by
  induction params generalizing r with
  | nil =>
    refine ⟨r, rfl, hr, fun k => ?_⟩
    cases getOwn r k <;> simp [firstStored]
  | cons s rest ih =>
    have hs : OrdinaryName s.name := hord s (List.mem_cons_self _ _)
    have hrest : ∀ t ∈ rest, OrdinaryName t.name := fun t ht => hord t (List.mem_cons_of_mem _ ht)
    have hstep : ∃ r2, parseStep url r s = .ok r2 ∧ getOwn r2 "hasOwnProperty" = none ∧
        ∀ k, getOwn r2 k = (getOwn r k).orElse (fun _ =>
          if s.name = k ∧ (finalValue url s).isNotNull = true then some (finalValue url s)
          else none) := by
      unfold parseStep hasOwnPropertyCall
      simp only [hr]
      cases hn : hasOwn r s.name with
      | true =>
        refine ⟨r, rfl, hr, fun k => ?_⟩
        cases hk : getOwn r k with
        | some v => simp
        | none =>
          have : s.name ≠ k := by
            intro e
            subst e
            simp [hasOwn, hk] at hn
          simp [this]
      | false =>
        have hnone : getOwn r s.name = none := by
          cases hg : getOwn r s.name with
          | none => rfl
          | some v => simp [hasOwn, hg] at hn
        by_cases hv : (finalValue url s).isNotNull = true
        · refine ⟨setProperty r s.name (finalValue url s), by simp [hv], ?_, fun k => ?_⟩
          · rw [getOwn_setProperty]
            simp [hs.1, hs.2, hr]
          · rw [getOwn_setProperty]
            by_cases hk : s.name = k
            · subst hk
              simp [hs.2, hnone, hv]
            · cases hg : getOwn r k <;> simp [hs.2, hk]
        · refine ⟨r, by simp [hv], hr, fun k => ?_⟩
          cases hg : getOwn r k <;> simp [hv]
    obtain ⟨r2, h2, hr2, hget2⟩ := hstep
    obtain ⟨r1, h1, hr1, hget1⟩ := ih r2 hr2 hrest
    refine ⟨r1, by simp [parseLoop, h2, h1], hr1, fun k => ?_⟩
    rw [hget1 k, hget2 k]
    cases hg : getOwn r k with
    | some v => simp
    | none =>
      by_cases hc : s.name = k ∧ (finalValue url s).isNotNull = true
      · simp [firstStored, hc]
      · simp only [firstStored, hc, if_false]
        simp

/-- With ordinary names `parseSettings` returns an object, and its property of
each name is what `firstStored` says. -/
theorem parseSettings_ordinary (params : List Setting) (url : URLSearchParams)
    (hord : ∀ s ∈ params, OrdinaryName s.name) :
    ∃ r, parseSettings params url = .ok r ∧ ∀ k, getOwn r k = firstStored url params k := by
  obtain ⟨r, h, _, hget⟩ := parseLoop_ordinary url params [] rfl hord
  exact ⟨r, h, fun k => by simpa [getOwn] using hget k⟩

theorem firstStored_of_not_mem (url : URLSearchParams) (params : List Setting) (k : String)
    (h : k ∉ params.map Setting.name) : firstStored url params k = none := by
  induction params with
  | nil => rfl
  | cons s rest ih =>
    simp only [List.map_cons, List.mem_cons, not_or] at h
    have : s.name ≠ k := fun e => h.1 e.symm
    simp [firstStored, this, ih h.2]

/-- With unique names each setting is the only one to decide its name. -/
theorem firstStored_of_nodup (url : URLSearchParams) (params : List Setting) (s : Setting)
    (hnd : (params.map Setting.name).Nodup) (hs : s ∈ params) :
    firstStored url params s.name =
      if (finalValue url s).isNotNull = true then some (finalValue url s) else none := by
  induction params with
  | nil => simp at hs
  | cons t rest ih =>
    simp only [List.map_cons, List.nodup_cons] at hnd
    rcases List.mem_cons.mp hs with e | hmem
    · subst e
      by_cases hv : (finalValue url s).isNotNull = true
      · simp [firstStored, hv]
      · simp [firstStored, hv, firstStored_of_not_mem url rest s.name hnd.1]
    · have hne : t.name ≠ s.name := by
        intro e
        exact hnd.1 (e ▸ List.mem_map_of_mem Setting.name hmem)
      simp [firstStored, hne, ih hnd.2 hmem]

/-- A setting decides its name when every earlier setting of that name ended with
`null` and its own final value is not `null`. -/
theorem firstStored_of_decides (url : URLSearchParams) (pre post : List Setting) (s : Setting)
    (hpre : ∀ e ∈ pre, e.name = s.name → finalValue url e = .null)
    (hfin : finalValue url s ≠ .null) :
    firstStored url (pre ++ s :: post) s.name = some (finalValue url s) := by
  induction pre with
  | nil =>
    have hnn : (finalValue url s).isNotNull = true := by
      cases hf : finalValue url s <;> simp_all [JSValue.isNotNull]
    simp [firstStored, hnn]
  | cons e rest ih =>
    have hrest : ∀ t ∈ rest, t.name = s.name → finalValue url t = .null :=
      fun t ht => hpre t (List.mem_cons_of_mem _ ht)
    by_cases hn : e.name = s.name
    · have hz := hpre e (List.mem_cons_self _ _) hn
      simp [firstStored, hz, JSValue.isNotNull, ih hrest]
    · simp [firstStored, hn, ih hrest]

/-- How a setting resolves in a list of unique, ordinary names: `parseSettings`
returns an object whose property of the setting's name is the setting's final
value, and which has no such property when the final value is `null`. -/
theorem parseSettings_resolves (params : List Setting) (url : URLSearchParams) (s : Setting)
    (hord : ∀ t ∈ params, OrdinaryName t.name) (hnd : (params.map Setting.name).Nodup)
    (hs : s ∈ params) :
    ∃ r, parseSettings params url = .ok r ∧
      getOwn r s.name =
        if (finalValue url s).isNotNull = true then some (finalValue url s) else none := by
  obtain ⟨r, h, hget⟩ := parseSettings_ordinary params url hord
  exact ⟨r, h, by rw [hget, firstStored_of_nodup url params s hnd hs]⟩


/-- `isValidUrl` always returns, and returns `true` exactly when the constructor
succeeds with one of the two protocols. -/
theorem isValidUrl_iff (afterScheme : String → List Char → Bool) (v : JSValue) :
    ∃ b, isValidUrl afterScheme v = .ok b ∧
      (b = true ↔ ∃ u, URL_new afterScheme v = .ok u ∧
        (u.protocol = "https:" ∨ u.protocol = "http:")) := by
  unfold isValidUrl
  cases h : URL_new afterScheme v with
  | error e => exact ⟨false, rfl, by simp⟩
  | ok u => exact ⟨_, rfl, by simp⟩

/-- An input without a scheme is not a valid URL, whatever the rest of the parser. -/
theorem isValidUrl_of_no_scheme (afterScheme : String → List Char → Bool) (v : JSValue)
    (h : schemeStartState (urlPreprocess v.toJSString.toList) = none) :
    isValidUrl afterScheme v = .ok false := by
  unfold isValidUrl URL_new
  rw [h]

/-- The branch taken once both calls of `parseSettings` have returned. -/
theorem topLevel_of_ok (ruffleSettings : List Setting) (afterScheme : String → List Char → Bool)
    (url : URLSearchParams) (cfg ui : JSObject)
    (h1 : parseSettings ruffleSettings url = .ok cfg) (h2 : parseSettings uiSettings url = .ok ui) :
    ∃ p, topLevel ruffleSettings afterScheme url = .ok p ∧
      (p = .launch ↔ isValidUrl afterScheme (resolvedUrl cfg) = .ok true) ∧
      (p = .form ↔ isValidUrl afterScheme (resolvedUrl cfg) = .ok false ∧
        resolvedUrl cfg = .str defUrl) ∧
      (p = .error ↔ isValidUrl afterScheme (resolvedUrl cfg) = .ok false ∧
        resolvedUrl cfg ≠ .str defUrl) := by
  obtain ⟨b, hb, _⟩ := isValidUrl_iff afterScheme (resolvedUrl cfg)
  unfold topLevel
  simp only [h1, h2]
  unfold resolvedUrl at hb ⊢
  cases hg : getOwn cfg "url" with
  | some v =>
    simp only [hg] at hb ⊢
    cases b with
    | true => exact ⟨.launch, by simp [hb], by simp [hb], by simp [hb], by simp [hb]⟩
    | false =>
      by_cases hd : v = .str defUrl
      · subst hd
        exact ⟨.form, by simp [hb], by simp [hb], by simp [hb], by simp [hb]⟩
      · exact ⟨.error, by simp [hb, hd], by simp [hb], by simp [hb, hd], by simp [hb, hd]⟩
  | none =>
    simp only [hg] at hb ⊢
    cases b with
    | true => exact ⟨.launch, by simp [hb], by simp [hb], by simp [hb], by simp [hb]⟩
    | false => exact ⟨.form, by simp [hb], by simp [hb], by simp [hb], by simp [hb]⟩

theorem uiSettings_ordinary : ∀ s ∈ uiSettings, OrdinaryName s.name := by decide

theorem FlashStatic_ruffleSettings_ordinary :
    ∀ s ∈ FlashStatic.ruffleSettings, OrdinaryName s.name := by decide

theorem Static_ruffleSettings_ordinary :
    ∀ s ∈ Static.ruffleSettings, OrdinaryName s.name := by decide

/-- What a setting's final value can be when its possible values are an array and
its default is not a boolean. -/
theorem finalValue_of_array (url : URLSearchParams) (s : Setting) (arr : List JSValue)
    (ha : s.possibleValues = some arr) (hb : s.defaultValue.isBoolean = false) :
    finalValue url s ∈ arr ∨ finalValue url s = s.defaultValue := by
  unfold finalValue
  cases s.isConfigurable with
  | false => simp
  | true =>
    cases searchParamsGet url s.name with
    | none => simp
    | some raw =>
      by_cases hm : JSValue.str raw ∈ arr
      · simp [hb, ha, hm]
      · simp [hb, ha, hm]

end Flash

/-! ## How one setting resolves, in a list of unique and ordinary names -/

namespace Flash

/-- A configurable setting with a boolean default: the default without a query
parameter, and otherwise `true` exactly for the raw value `on`. -/
theorem boolean_setting_resolves (params : List Setting) (url : URLSearchParams) (s : Setting)
    (b : Bool) (hord : ∀ t ∈ params, OrdinaryName t.name)
    (hnd : (params.map Setting.name).Nodup) (hs : s ∈ params)
    (hc : s.isConfigurable = true) (hd : s.defaultValue = .bool b) :
    ∃ r, parseSettings params url = .ok r ∧
      getOwn r s.name = some (match searchParamsGet url s.name with
        | none => .bool b
        | some raw => .bool (decide (raw = "on"))) := by
  obtain ⟨r, h, hget⟩ := parseSettings_resolves params url s hord hnd hs
  refine ⟨r, h, ?_⟩
  rw [hget]
  unfold finalValue
  cases searchParamsGet url s.name <;> simp [hc, hd, JSValue.isBoolean, JSValue.isNotNull]

/-- A configurable setting with a string default and an array of possible values:
the raw value when it is in the array, the default when it is not. -/
theorem enum_setting_resolves (params : List Setting) (url : URLSearchParams) (s : Setting)
    (d raw : String) (arr : List JSValue) (hord : ∀ t ∈ params, OrdinaryName t.name)
    (hnd : (params.map Setting.name).Nodup) (hs : s ∈ params)
    (hc : s.isConfigurable = true) (hd : s.defaultValue = .str d)
    (ha : s.possibleValues = some arr) (hq : searchParamsGet url s.name = some raw) :
    ∃ r, parseSettings params url = .ok r ∧
      getOwn r s.name = some (if JSValue.str raw ∈ arr then .str raw else .str d) := by
  obtain ⟨r, h, hget⟩ := parseSettings_resolves params url s hord hnd hs
  refine ⟨r, h, ?_⟩
  rw [hget]
  unfold finalValue
  by_cases hm : JSValue.str raw ∈ arr <;>
    simp [hc, hd, ha, hq, hm, JSValue.isBoolean, JSValue.isNotNull]

/-- A setting that is not configurable: its default, and no property at all when
the default is `null`. -/
theorem fixed_setting_resolves (params : List Setting) (url : URLSearchParams) (s : Setting)
    (hord : ∀ t ∈ params, OrdinaryName t.name)
    (hnd : (params.map Setting.name).Nodup) (hs : s ∈ params)
    (hc : s.isConfigurable = false) :
    ∃ r, parseSettings params url = .ok r ∧
      getOwn r s.name = if s.defaultValue = .null then none else some s.defaultValue := by
  obtain ⟨r, h, hget⟩ := parseSettings_resolves params url s hord hnd hs
  refine ⟨r, h, ?_⟩
  rw [hget]
  unfold finalValue
  cases hv : s.defaultValue <;> simp [hc, hv, JSValue.isNotNull]

/-- A configurable setting whose default is no boolean and whose possible values
are no array: the raw value as it is when the parameter is present, the default
(no property for `null`) when it is absent. -/
theorem free_text_setting_resolves (params : List Setting) (url : URLSearchParams) (s : Setting)
    (hord : ∀ t ∈ params, OrdinaryName t.name)
    (hnd : (params.map Setting.name).Nodup) (hs : s ∈ params)
    (hc : s.isConfigurable = true) (hb : s.defaultValue.isBoolean = false)
    (ha : s.possibleValues = none) :
    ∃ r, parseSettings params url = .ok r ∧
      getOwn r s.name = match searchParamsGet url s.name with
        | some raw => some (.str raw)
        | none => if s.defaultValue = .null then none else some s.defaultValue := by
  obtain ⟨r, h, hget⟩ := parseSettings_resolves params url s hord hnd hs
  refine ⟨r, h, ?_⟩
  rw [hget]
  unfold finalValue
  cases hq : searchParamsGet url s.name with
  | some raw => simp [hc, hb, ha, JSValue.isNotNull]
  | none => cases hv : s.defaultValue <;> simp [hc, hv, JSValue.isNotNull]

/-- The loop only ever stores values that are not `null`. -/
theorem parseLoop_no_null (url : URLSearchParams) (params : List Setting) (r r1 : JSObject)
    (h : parseLoop url r params = .ok r1) (hr : ∀ k, getOwn r k ≠ some .null) (k : String) :
    getOwn r1 k ≠ some .null := by
  induction params generalizing r with
  | nil => simp [parseLoop] at h; subst h; exact hr k
  | cons s rest ih =>
    simp only [parseLoop] at h
    cases hs : parseStep url r s with
    | error e => simp [hs] at h
    | ok r2 =>
      simp only [hs] at h
      refine ih r2 h (fun j => ?_)
      by_cases hn : s.name = j
      · subst hn
        cases hg : getOwn r s.name with
        | some v =>
          rw [parseStep_keeps url r r2 s hs s.name v hg]
          intro e
          exact hr s.name (by rw [hg, e])
        | none =>
          rw [parseStep_own url r r2 s hs hg]
          by_cases hc : s.name = "__proto__" ∨ (finalValue url s).isNotNull = false
          · simp [hc]
          · simp only [hc, if_false]
            intro e
            simp only [Option.some.injEq] at e
            simp [e, JSValue.isNotNull] at hc
      · rw [parseStep_other url r r2 s hs j hn]
        exact hr j

/-- The keys of the mapping, for unique and ordinary names: a name is a key
exactly when a setting of that name has a final value that is not `null`, and no
key maps to `null`. -/
theorem keys_of_parseSettings (params : List Setting) (url : URLSearchParams)
    (hord : ∀ t ∈ params, OrdinaryName t.name) (hnd : (params.map Setting.name).Nodup) :
    ∃ r, parseSettings params url = .ok r ∧
      (∀ k, hasOwn r k = true ↔ ∃ s ∈ params, s.name = k ∧ finalValue url s ≠ .null) ∧
      (∀ k, getOwn r k ≠ some .null) := by
  obtain ⟨r, h, hget⟩ := parseSettings_ordinary params url hord
  refine ⟨r, h, fun k => ?_, fun k => ?_⟩
  · constructor
    · intro hk
      by_cases hm : k ∈ params.map Setting.name
      · obtain ⟨s, hs, rfl⟩ := List.mem_map.mp hm
        refine ⟨s, hs, rfl, ?_⟩
        intro hz
        rw [hasOwn, hget, firstStored_of_nodup url params s hnd hs] at hk
        simp [hz, JSValue.isNotNull] at hk
      · rw [hasOwn, hget, firstStored_of_not_mem url params k hm] at hk
        simp at hk
    · rintro ⟨s, hs, rfl, hv⟩
      rw [hasOwn, hget, firstStored_of_nodup url params s hnd hs]
      cases hf : finalValue url s <;> simp_all [JSValue.isNotNull]
  · exact parseLoop_no_null url params [] r h (fun j => by simp [getOwn]) k

end Flash

/-! ## `isValidUrl` and the top-level branch -/

namespace Flash

/-- With a scheme, `isValidUrl` returns whether the rest parses and the scheme is
one of the two. -/
theorem isValidUrl_of_scheme (afterScheme : String → List Char → Bool) (v : JSValue)
    (scheme : String) (rest : List Char)
    (h : schemeStartState (urlPreprocess v.toJSString.toList) = some (scheme, rest)) :
    isValidUrl afterScheme v =
      .ok (afterScheme scheme rest && (scheme ++ ":" = "https:" || scheme ++ ":" = "http:")) := by
  unfold isValidUrl URL_new
  rw [h]
  cases ha : afterScheme scheme rest <;> simp [ha]

/-- The two scripts never throw in `parseSettings(ruffleSettings)`, and the
resolved `url` is the raw query value, or the empty default without one. -/
theorem FlashStatic_ruffleConfig (url : URLSearchParams) :
    ∃ cfg, parseSettings FlashStatic.ruffleSettings url = .ok cfg ∧
      resolvedUrl cfg = .str ((searchParamsGet url "url").getD defUrl) := by
  obtain ⟨cfg, h, hget⟩ :=
    parseSettings_ordinary FlashStatic.ruffleSettings url FlashStatic_ruffleSettings_ordinary
  refine ⟨cfg, h, ?_⟩
  unfold resolvedUrl
  rw [hget]
  cases hq : searchParamsGet url "url" <;>
    simp [FlashStatic.ruffleSettings, sharedSettings, firstStored, finalValue, hq,
      JSValue.isBoolean, JSValue.isNotNull, defUrl]

theorem Static_ruffleConfig (url : URLSearchParams) :
    ∃ cfg, parseSettings Static.ruffleSettings url = .ok cfg ∧
      resolvedUrl cfg = .str ((searchParamsGet url "url").getD defUrl) := by
  obtain ⟨cfg, h, hget⟩ :=
    parseSettings_ordinary Static.ruffleSettings url Static_ruffleSettings_ordinary
  refine ⟨cfg, h, ?_⟩
  unfold resolvedUrl
  rw [hget]
  cases hq : searchParamsGet url "url" <;>
    simp [Static.ruffleSettings, sharedSettings, firstStored, finalValue, hq,
      JSValue.isBoolean, JSValue.isNotNull, defUrl]


/-- The branch of a script whose `parseSettings(ruffleSettings)` returns for every
query: exactly one of the three, decided by the resolved `url`. -/
theorem topLevel_branches (ruffleSettings : List Setting)
    (afterScheme : String → List Char → Bool) (url : URLSearchParams) (cfg : JSObject)
    (h : parseSettings ruffleSettings url = .ok cfg) :
    ∃ p, topLevel ruffleSettings afterScheme url = .ok p ∧
      (p = .launch ↔ isValidUrl afterScheme (resolvedUrl cfg) = .ok true) ∧
      (p = .form ↔ isValidUrl afterScheme (resolvedUrl cfg) = .ok false ∧
        resolvedUrl cfg = .str defUrl) ∧
      (p = .error ↔ isValidUrl afterScheme (resolvedUrl cfg) = .ok false ∧
        resolvedUrl cfg ≠ .str defUrl) := by
  obtain ⟨ui, hui, _⟩ := parseSettings_ordinary uiSettings url uiSettings_ordinary
  exact topLevel_of_ok ruffleSettings afterScheme url cfg ui h hui

/-- The branch for a query whose `url` has no scheme: the form for the empty
value, the error message for any other. -/
theorem topLevel_of_no_scheme (ruffleSettings : List Setting)
    (afterScheme : String → List Char → Bool) (url : URLSearchParams) (cfg : JSObject)
    (raw : String) (h : parseSettings ruffleSettings url = .ok cfg)
    (hraw : resolvedUrl cfg = .str raw)
    (hs : schemeStartState (urlPreprocess raw.toList) = none) :
    topLevel ruffleSettings afterScheme url = .ok (if raw = defUrl then .form else .error) := by
  obtain ⟨p, hp, _, hform, herr⟩ := topLevel_branches ruffleSettings afterScheme url cfg h
  have hv : isValidUrl afterScheme (resolvedUrl cfg) = .ok false := by
    rw [hraw]
    exact isValidUrl_of_no_scheme afterScheme (.str raw) hs
  rw [hp]
  by_cases hd : raw = defUrl
  · simp only [hd, if_true]
    rw [hform.mpr ⟨hv, by rw [hraw, hd]⟩]
  · simp only [hd, if_false]
    rw [herr.mpr ⟨hv, by rw [hraw]; simpa using hd⟩]

end Flash

/-! ## The claims -/

namespace Flash

/-- Claim C1: in every list of unique names a configurable boolean setting is to
resolve to `true` for the raw value `on`. Here `menu` follows a setting named
`hasOwnProperty`: the value stored for that one shadows the method called at
line 60, `parseSettings` throws at `menu` and nothing is resolved. -/
theorem boolean_setting_unresolved_after_hasOwnProperty :
    parseSettings
      [ ⟨"", "hasOwnProperty", .str "x", false, none⟩,
        ⟨"Menu", "menu", .bool true, true, none⟩ ]
      [("menu", "on")] =
    .error (.typeError "result.hasOwnProperty is not a function") := by
  decide

/-- Claim C2: in every list of unique names a configurable setting with a
string default and an array of possible values is to resolve to a raw value of
the array. Here `quality` follows a setting named `hasOwnProperty` and the query has
`quality=medium`: `parseSettings` throws at `quality`. -/
theorem enum_setting_unresolved_after_hasOwnProperty :
    parseSettings
      [ ⟨"", "hasOwnProperty", .bool true, false, none⟩,
        ⟨"Qualité", "quality", .str "best", true,
          some [.str "low", .str "medium", .str "high", .str "best"]⟩ ]
      [("quality", "medium")] =
    .error (.typeError "result.hasOwnProperty is not a function") := by
  decide

/-- Claim C3: in every list of unique names a setting that is not configurable is
to resolve to its default. Here `polyfills` follows a setting named
`hasOwnProperty`: `parseSettings` throws at `polyfills`, with or without a query
value for it. -/
theorem fixed_setting_unresolved_after_hasOwnProperty :
    parseSettings
      [ ⟨"", "hasOwnProperty", .str "own", false, none⟩,
        ⟨"Remplacer les embeds Flash", "polyfills", .bool false, false, none⟩ ]
      [("polyfills", "on")] =
    .error (.typeError "result.hasOwnProperty is not a function") ∧
    parseSettings
      [ ⟨"", "hasOwnProperty", .str "own", false, none⟩,
        ⟨"Remplacer les embeds Flash", "polyfills", .bool false, false, none⟩ ]
      [] =
    .error (.typeError "result.hasOwnProperty is not a function") := by
  decide

/-- Claim C4: in every list of unique names a configurable free-text setting is to
resolve to the raw query value. Here `url` follows a configurable free-text
setting named `hasOwnProperty` that the query sets too: `parseSettings` throws at
`url`. -/
theorem free_text_setting_unresolved_after_hasOwnProperty :
    parseSettings
      [ ⟨"", "hasOwnProperty", .null, true, none⟩,
        ⟨"", "url", .str defUrl, true, none⟩ ]
      [("hasOwnProperty", "1"), ("url", "https://example.org/a.swf")] =
    .error (.typeError "result.hasOwnProperty is not a function") := by
  decide

/-- Claim C5: the keys of the returned mapping are to be exactly the names of the
settings whose final value is not `null`. Here the one setting is named
`__proto__` and its final value is the string `x`: the assignment of line 83 is
taken by the inherited setter and the returned object has no key at all. -/
theorem key_missing_for_proto_setting :
    finalValue [] ⟨"", "__proto__", .str "x", false, none⟩ = .str "x" ∧
    parseSettings [⟨"", "__proto__", .str "x", false, none⟩] [] = .ok [] := by
  decide

/-- Claim C6: `isValidUrl(s)` returns a boolean for every string and never throws;
it returns `true` exactly when `new URL(s)` succeeds with the protocol `https:` or
`http:`. It is `true` for `https://example.org/a.swf` (the platform's parser
accepting what follows that scheme), and `false` for `ftp://x/a.swf`, for
`not a url` and for the empty string. -/
theorem isValidUrl_contract (afterScheme : String → List Char → Bool) (s : String)
    (hrest : afterScheme "https" "//example.org/a.swf".toList = true) :
    (∃ b, isValidUrl afterScheme (.str s) = .ok b ∧
      (b = true ↔ ∃ u, URL_new afterScheme (.str s) = .ok u ∧
        (u.protocol = "https:" ∨ u.protocol = "http:"))) ∧
    isValidUrl afterScheme (.str "https://example.org/a.swf") = .ok true ∧
    isValidUrl afterScheme (.str "ftp://x/a.swf") = .ok false ∧
    isValidUrl afterScheme (.str "not a url") = .ok false ∧
    isValidUrl afterScheme (.str "") = .ok false := by
  refine ⟨isValidUrl_iff afterScheme (.str s), ?_, ?_, ?_, ?_⟩
  · rw [isValidUrl_of_scheme afterScheme (.str "https://example.org/a.swf") "https"
      "//example.org/a.swf".toList (by decide), hrest]
    decide
  · rw [isValidUrl_of_scheme afterScheme (.str "ftp://x/a.swf") "ftp" "//x/a.swf".toList
      (by decide)]
    have : (decide ("ftp" ++ ":" = "https:") || decide ("ftp" ++ ":" = "http:")) = false := by
      decide
    rw [this, Bool.and_false]
  · exact isValidUrl_of_no_scheme afterScheme (.str "not a url") (by decide)
  · exact isValidUrl_of_no_scheme afterScheme (.str "") (by decide)

/-- The contract of `isValidUrl` at a parser that accepts every rest. -/
theorem isValidUrl_contract_witness :
    acceptRest "https" "//example.org/a.swf".toList = true ∧
    isValidUrl acceptRest (.str "https://example.org/a.swf") = .ok true ∧
    isValidUrl acceptRest (.str "ftp://x/a.swf") = .ok false :=
  ⟨by decide,
    (isValidUrl_contract acceptRest "http://example.org/" (by decide)).2.1,
    (isValidUrl_contract acceptRest "http://example.org/" (by decide)).2.2.1⟩

/-- Claim C7: for every query each script takes exactly one of three branches,
decided by the resolved setting `url` (the raw query value, or the empty default
without one): the launch exactly when `isValidUrl` of it
is `true`, otherwise the form exactly when it is the empty default, otherwise the
error message. The empty query and `?url=` take the form, `?url=not-a-url` takes
the error message. -/
theorem script_takes_one_of_three_paths (afterScheme : String → List Char → Bool)
    (url : URLSearchParams) :
    (∃ cfg p, parseSettings FlashStatic.ruffleSettings url = .ok cfg ∧
      resolvedUrl cfg = .str ((searchParamsGet url "url").getD defUrl) ∧
      FlashStatic.scriptPath afterScheme url = .ok p ∧
      (p = .launch ↔ isValidUrl afterScheme (resolvedUrl cfg) = .ok true) ∧
      (p = .form ↔ isValidUrl afterScheme (resolvedUrl cfg) = .ok false ∧
        resolvedUrl cfg = .str defUrl) ∧
      (p = .error ↔ isValidUrl afterScheme (resolvedUrl cfg) = .ok false ∧
        resolvedUrl cfg ≠ .str defUrl)) ∧
    (∃ cfg p, parseSettings Static.ruffleSettings url = .ok cfg ∧
      resolvedUrl cfg = .str ((searchParamsGet url "url").getD defUrl) ∧
      Static.scriptPath afterScheme url = .ok p ∧
      (p = .launch ↔ isValidUrl afterScheme (resolvedUrl cfg) = .ok true) ∧
      (p = .form ↔ isValidUrl afterScheme (resolvedUrl cfg) = .ok false ∧
        resolvedUrl cfg = .str defUrl) ∧
      (p = .error ↔ isValidUrl afterScheme (resolvedUrl cfg) = .ok false ∧
        resolvedUrl cfg ≠ .str defUrl)) ∧
    FlashStatic.scriptPath afterScheme emptyQuery = .ok .form ∧
    Static.scriptPath afterScheme emptyQuery = .ok .form ∧
    FlashStatic.scriptPath afterScheme emptyUrlQuery = .ok .form ∧
    Static.scriptPath afterScheme emptyUrlQuery = .ok .form ∧
    FlashStatic.scriptPath afterScheme notAUrlQuery = .ok .error ∧
    Static.scriptPath afterScheme notAUrlQuery = .ok .error := by
  refine ⟨?_, ?_, ?_, ?_, ?_, ?_, ?_, ?_⟩
  · obtain ⟨cfg, h, hu⟩ := FlashStatic_ruffleConfig url
    obtain ⟨p, hp⟩ := topLevel_branches FlashStatic.ruffleSettings afterScheme url cfg h
    exact ⟨cfg, p, h, hu, hp⟩
  · obtain ⟨cfg, h, hu⟩ := Static_ruffleConfig url
    obtain ⟨p, hp⟩ := topLevel_branches Static.ruffleSettings afterScheme url cfg h
    exact ⟨cfg, p, h, hu, hp⟩
  · obtain ⟨cfg, h, hu⟩ := FlashStatic_ruffleConfig emptyQuery
    exact topLevel_of_no_scheme FlashStatic.ruffleSettings afterScheme _ cfg "" h hu (by decide)
  · obtain ⟨cfg, h, hu⟩ := Static_ruffleConfig emptyQuery
    exact topLevel_of_no_scheme Static.ruffleSettings afterScheme _ cfg "" h hu (by decide)
  · obtain ⟨cfg, h, hu⟩ := FlashStatic_ruffleConfig emptyUrlQuery
    exact topLevel_of_no_scheme FlashStatic.ruffleSettings afterScheme _ cfg "" h hu (by decide)
  · obtain ⟨cfg, h, hu⟩ := Static_ruffleConfig emptyUrlQuery
    exact topLevel_of_no_scheme Static.ruffleSettings afterScheme _ cfg "" h hu (by decide)
  · obtain ⟨cfg, h, hu⟩ := FlashStatic_ruffleConfig notAUrlQuery
    exact topLevel_of_no_scheme FlashStatic.ruffleSettings afterScheme _ cfg "not-a-url" h hu
      (by decide)
  · obtain ⟨cfg, h, hu⟩ := Static_ruffleConfig notAUrlQuery
    exact topLevel_of_no_scheme Static.ruffleSettings afterScheme _ cfg "not-a-url" h hu
      (by decide)


/-- Claim C8: for the query `?quality=medium&menu=on&url=https://example.org/demo.swf`
`parseSettings(ruffleSettings)` returns, in both scripts, exactly the mapping of
fifteen keys with `quality` `medium`, `menu` `true`, that `url` and every other
setting at its default, and both scripts take the launch branch (the platform's
parser accepting what follows the scheme of that `url`). -/
theorem demo_query_launches (afterScheme : String → List Char → Bool)
    (hrest : afterScheme "https" "//example.org/demo.swf".toList = true) :
    parseSettings FlashStatic.ruffleSettings demoQuery = .ok demoConfig ∧
    parseSettings Static.ruffleSettings demoQuery = .ok demoConfig ∧
    demoConfig.length = 15 ∧
    FlashStatic.scriptPath afterScheme demoQuery = .ok .launch ∧
    Static.scriptPath afterScheme demoQuery = .ok .launch := by
  have h1 : parseSettings FlashStatic.ruffleSettings demoQuery = .ok demoConfig := by decide
  have h2 : parseSettings Static.ruffleSettings demoQuery = .ok demoConfig := by decide
  have hv : isValidUrl afterScheme (resolvedUrl demoConfig) = .ok true := by
    rw [isValidUrl_of_scheme afterScheme (resolvedUrl demoConfig) "https"
      "//example.org/demo.swf".toList (by decide), hrest]
    decide
  refine ⟨h1, h2, by decide, ?_, ?_⟩
  · obtain ⟨p, hp, hl, _⟩ :=
      topLevel_branches FlashStatic.ruffleSettings afterScheme demoQuery demoConfig h1
    rw [FlashStatic.scriptPath, hp, hl.mpr hv]
  · obtain ⟨p, hp, hl, _⟩ :=
      topLevel_branches Static.ruffleSettings afterScheme demoQuery demoConfig h2
    rw [Static.scriptPath, hp, hl.mpr hv]

/-- The scenario of the demo file at a parser that accepts every rest. -/
theorem demo_query_launches_witness :
    acceptRest "https" "//example.org/demo.swf".toList = true ∧
    parseSettings FlashStatic.ruffleSettings demoQuery = .ok demoConfig ∧
    FlashStatic.scriptPath acceptRest demoQuery = .ok .launch ∧
    Static.scriptPath acceptRest demoQuery = .ok .launch :=
  ⟨by decide,
    (demo_query_launches acceptRest (by decide)).1,
    (demo_query_launches acceptRest (by decide)).2.2.2.1,
    (demo_query_launches acceptRest (by decide)).2.2.2.2⟩

/-- Claim C9 as it is stated fails: a setting with a boolean default and an array
of possible values, `flag` with default `true` and the array `["yes"]`, decides
its name and resolves to `false` for the query `?flag=no`, which is neither in
the array nor the default. -/
theorem array_claim_fails_for_boolean_default :
    ¬ ∀ (pre post : List Setting) (s : Setting) (url : URLSearchParams) (arr : List JSValue)
        (r : JSObject) (v : JSValue),
        s.possibleValues = some arr →
        (∀ e ∈ pre, e.name = s.name → finalValue url e = .null) →
        finalValue url s ≠ .null →
        parseSettings (pre ++ s :: post) url = .ok r →
        getOwn r s.name = some v →
        v ∈ arr ∨ v = s.defaultValue := by
  intro h
  have hc := h [] [] ⟨"", "flag", .bool true, true, some [.str "yes"]⟩ [("flag", "no")]
    [.str "yes"] [("flag", .bool false)] (.bool false) rfl (by simp) (by decide) (by decide)
    (by decide)
  revert hc
  decide

/-- Claim C9, amended: for every list, every query and every setting of the list
whose possible values are an array and whose default is not a boolean, when the
setting is the one that decides its name (no earlier setting of that name was
stored, and its own final value is not `null`), the value the returned mapping
has under its name is in the array or is the setting's default; and when the
names of the list are ordinary, a mapping is returned and has that value. -/
theorem array_setting_in_array_or_default (pre post : List Setting) (s : Setting)
    (url : URLSearchParams) (arr : List JSValue)
    (harr : s.possibleValues = some arr)
    (hbool : s.defaultValue.isBoolean = false)
    (hpre : ∀ e ∈ pre, e.name = s.name → finalValue url e = .null)
    (hfin : finalValue url s ≠ .null) :
    (∀ r v, parseSettings (pre ++ s :: post) url = .ok r → getOwn r s.name = some v →
      v ∈ arr ∨ v = s.defaultValue) ∧
    ((∀ t ∈ pre ++ s :: post, OrdinaryName t.name) →
      ∃ r v, parseSettings (pre ++ s :: post) url = .ok r ∧ getOwn r s.name = some v ∧
        (v ∈ arr ∨ v = s.defaultValue)) := by
  have hfv := finalValue_of_array url s arr harr hbool
  constructor
  · intro r v hret hget
    by_cases hp : s.name = "__proto__"
    · exfalso
      rw [hp] at hget
      rw [parseSettings_never_proto (pre ++ s :: post) url r hret] at hget
      exact Option.noConfusion hget
    · unfold parseSettings at hret
      rw [parseLoop_append] at hret
      cases h1 : parseLoop url [] pre with
      | error e => simp [h1] at hret
      | ok r1 =>
        simp only [h1, parseLoop] at hret
        cases h2 : parseStep url r1 s with
        | error e => simp [h2] at hret
        | ok r2 =>
          simp only [h2] at hret
          have hnone : getOwn r1 s.name = none :=
            parseLoop_absent url pre [] r1 h1 s.name rfl hpre
          have hnn : (finalValue url s).isNotNull = true := by
            cases hf : finalValue url s <;> simp_all [JSValue.isNotNull]
          have hstored : getOwn r2 s.name = some (finalValue url s) := by
            rw [parseStep_own url r1 r2 s h2 hnone]
            simp [hp, hnn]
          have hfinal := parseLoop_keeps url post r2 r hret s.name _ hstored
          rw [hfinal] at hget
          rw [← Option.some.inj hget]
          exact hfv
  · intro hord
    obtain ⟨r, hret, hget⟩ := parseSettings_ordinary (pre ++ s :: post) url hord
    exact ⟨r, finalValue url s, hret,
      by rw [hget, firstStored_of_decides url pre post s hpre hfin], hfv⟩

/-- The amended claim C9 at the setting `quality` and the query `?quality=medium`. -/
theorem array_setting_in_array_or_default_witness :
    parseSettings
      [ ⟨"Qualité", "quality", .str "best", true,
          some [.str "low", .str "medium", .str "high", .str "best"]⟩ ]
      [("quality", "medium")] = .ok [("quality", .str "medium")] ∧
    (JSValue.str "medium" ∈ [JSValue.str "low", .str "medium", .str "high", .str "best"] ∨
      JSValue.str "medium" = JSValue.str "best") :=
  ⟨by decide,
    (array_setting_in_array_or_default [] []
      ⟨"Qualité", "quality", .str "best", true,
        some [.str "low", .str "medium", .str "high", .str "best"]⟩
      [("quality", "medium")] [.str "low", .str "medium", .str "high", .str "best"]
      rfl rfl (by simp) (by decide)).1 [("quality", .str "medium")] (.str "medium")
      (by decide) (by decide)⟩

/-- Claim C10: a setting whose name occurred earlier in the list is to be skipped,
so that the mapping is that of the list without its later duplicates. Here the
first `quality` has the default `null` and no query value, so it is not stored;
line 60 does not see it and the second `quality` is used: the mapping has
`quality`, while the list without the duplicate gives the empty mapping. -/
theorem duplicate_used_after_null_setting :
    withoutLaterDuplicates
      [ ⟨"Qualité", "quality", .null, true, some [.str "low", .str "high"]⟩,
        ⟨"Qualité", "quality", .str "best", true, some [.str "low", .str "best"]⟩ ] =
      [ ⟨"Qualité", "quality", .null, true, some [.str "low", .str "high"]⟩ ] ∧
    parseSettings
      [ ⟨"Qualité", "quality", .null, true, some [.str "low", .str "high"]⟩,
        ⟨"Qualité", "quality", .str "best", true, some [.str "low", .str "best"]⟩ ]
      emptyQuery = .ok [("quality", .str "best")] ∧
    parseSettings
      (withoutLaterDuplicates
        [ ⟨"Qualité", "quality", .null, true, some [.str "low", .str "high"]⟩,
          ⟨"Qualité", "quality", .str "best", true, some [.str "low", .str "best"]⟩ ])
      emptyQuery = .ok [] := by
  decide

end Flash

/-! ## The two `autoplay` settings -/

namespace Flash

/-- The page-behaviour `autoplay` for every query: `true` exactly when the first
`autoplay` parameter is `on`. -/
theorem uiSettings_autoplay (url : URLSearchParams) :
    ∃ ui, parseSettings uiSettings url = .ok ui ∧
      getOwn ui "autoplay" =
        some (.bool (decide (searchParamsGet url "autoplay" = some "on"))) := by
  obtain ⟨ui, h, hget⟩ := parseSettings_ordinary uiSettings url uiSettings_ordinary
  refine ⟨ui, h, ?_⟩
  rw [hget]
  cases hq : searchParamsGet url "autoplay" <;>
    simp [uiSettings, sharedSettings, firstStored, finalValue, hq, JSValue.isBoolean,
      JSValue.isNotNull]

/-- The player's `autoplay` for every query, in `src/flash/static/flash.js`. -/
theorem FlashStatic_autoplay (url : URLSearchParams) :
    ∃ cfg, parseSettings FlashStatic.ruffleSettings url = .ok cfg ∧
      getOwn cfg "autoplay" = some (.str
        (match searchParamsGet url "autoplay" with
          | some raw => if raw = "auto" ∨ raw = "off" ∨ raw = "on" then raw else "auto"
          | none => "auto")) := by
  obtain ⟨cfg, h, hget⟩ :=
    parseSettings_ordinary FlashStatic.ruffleSettings url FlashStatic_ruffleSettings_ordinary
  refine ⟨cfg, h, ?_⟩
  rw [hget]
  cases hq : searchParamsGet url "autoplay" with
  | none =>
    simp [FlashStatic.ruffleSettings, sharedSettings, firstStored, finalValue, hq,
      JSValue.isBoolean, JSValue.isNotNull]
  | some raw =>
    by_cases hm : raw = "auto" ∨ raw = "off" ∨ raw = "on" <;>
      simp [FlashStatic.ruffleSettings, sharedSettings, firstStored, finalValue, hq, hm,
        JSValue.isBoolean, JSValue.isNotNull]

/-- The player's `autoplay` for every query, in `src/static/flash.js`. -/
theorem Static_autoplay (url : URLSearchParams) :
    ∃ cfg, parseSettings Static.ruffleSettings url = .ok cfg ∧
      getOwn cfg "autoplay" = some (.str
        (match searchParamsGet url "autoplay" with
          | some raw => if raw = "auto" ∨ raw = "off" ∨ raw = "on" then raw else "auto"
          | none => "auto")) := by
  obtain ⟨cfg, h, hget⟩ :=
    parseSettings_ordinary Static.ruffleSettings url Static_ruffleSettings_ordinary
  refine ⟨cfg, h, ?_⟩
  rw [hget]
  cases hq : searchParamsGet url "autoplay" with
  | none =>
    simp [Static.ruffleSettings, sharedSettings, firstStored, finalValue, hq,
      JSValue.isBoolean, JSValue.isNotNull]
  | some raw =>
    by_cases hm : raw = "auto" ∨ raw = "off" ∨ raw = "on" <;>
      simp [Static.ruffleSettings, sharedSettings, firstStored, finalValue, hq, hm,
        JSValue.isBoolean, JSValue.isNotNull]

end Flash

/-! ## The claims on the two scripts side by side -/

namespace Flash

/-- Claim C11: the page-behaviour `autoplay` and the player's `autoplay` are
resolved from the same query parameter, each by its own descriptor: for every
query the first is `true` exactly when the parameter is present with the value
`on` and `false` otherwise, the second is the raw value when it is one of `auto`,
`off`, `on` and `auto` otherwise, in both scripts. For `?autoplay=on` they are
`true` and `on`, without the parameter `false` and `auto`. -/
theorem autoplay_settings_resolve_independently (url : URLSearchParams) :
    (∃ ui, parseSettings FlashStatic.uiSettings url = .ok ui ∧
      getOwn ui "autoplay" =
        some (.bool (decide (searchParamsGet url "autoplay" = some "on")))) ∧
    (∃ ui, parseSettings Static.uiSettings url = .ok ui ∧
      getOwn ui "autoplay" =
        some (.bool (decide (searchParamsGet url "autoplay" = some "on")))) ∧
    (∃ cfg, parseSettings FlashStatic.ruffleSettings url = .ok cfg ∧
      getOwn cfg "autoplay" = some (.str
        (match searchParamsGet url "autoplay" with
          | some raw => if raw = "auto" ∨ raw = "off" ∨ raw = "on" then raw else "auto"
          | none => "auto"))) ∧
    (∃ cfg, parseSettings Static.ruffleSettings url = .ok cfg ∧
      getOwn cfg "autoplay" = some (.str
        (match searchParamsGet url "autoplay" with
          | some raw => if raw = "auto" ∨ raw = "off" ∨ raw = "on" then raw else "auto"
          | none => "auto"))) ∧
    (∃ ui cfg1 cfg2, parseSettings FlashStatic.uiSettings autoplayOnQuery = .ok ui ∧
      parseSettings FlashStatic.ruffleSettings autoplayOnQuery = .ok cfg1 ∧
      parseSettings Static.ruffleSettings autoplayOnQuery = .ok cfg2 ∧
      getOwn ui "autoplay" = some (.bool true) ∧
      getOwn cfg1 "autoplay" = some (.str "on") ∧
      getOwn cfg2 "autoplay" = some (.str "on")) ∧
    (∃ ui cfg1 cfg2, parseSettings FlashStatic.uiSettings emptyQuery = .ok ui ∧
      parseSettings FlashStatic.ruffleSettings emptyQuery = .ok cfg1 ∧
      parseSettings Static.ruffleSettings emptyQuery = .ok cfg2 ∧
      getOwn ui "autoplay" = some (.bool false) ∧
      getOwn cfg1 "autoplay" = some (.str "auto") ∧
      getOwn cfg2 "autoplay" = some (.str "auto")) := by
  refine ⟨uiSettings_autoplay url, uiSettings_autoplay url, FlashStatic_autoplay url,
    Static_autoplay url, ?_, ?_⟩
  · exact ⟨_, _, _, rfl, rfl, rfl, by decide, by decide, by decide⟩
  · exact ⟨_, _, _, rfl, rfl, rfl, by decide, by decide, by decide⟩

end Flash

namespace Flash

/-- The value of `scale` when the query may set it: the raw value when it is one
of the four, `showAll` otherwise. -/
theorem FlashStatic_scale (url : URLSearchParams) :
    ∃ cfg, parseSettings FlashStatic.ruffleSettings url = .ok cfg ∧
      getOwn cfg "scale" = some (.str
        (match searchParamsGet url "scale" with
          | some raw =>
            if raw = "showAll" ∨ raw = "noborder" ∨ raw = "exactfit" ∨ raw = "noscale" then raw
            else "showAll"
          | none => "showAll")) := by
  obtain ⟨cfg, h, hget⟩ :=
    parseSettings_ordinary FlashStatic.ruffleSettings url FlashStatic_ruffleSettings_ordinary
  refine ⟨cfg, h, ?_⟩
  rw [hget]
  cases hq : searchParamsGet url "scale" with
  | none =>
    simp [FlashStatic.ruffleSettings, sharedSettings, firstStored, finalValue, hq,
      JSValue.isBoolean, JSValue.isNotNull]
  | some raw =>
    by_cases hm : raw = "showAll" ∨ raw = "noborder" ∨ raw = "exactfit" ∨ raw = "noscale" <;>
      simp [FlashStatic.ruffleSettings, sharedSettings, firstStored, finalValue, hq, hm,
        JSValue.isBoolean, JSValue.isNotNull]

/-- In `src/static/flash.js` no query changes `scale`. -/
theorem Static_scale (url : URLSearchParams) :
    ∃ cfg, parseSettings Static.ruffleSettings url = .ok cfg ∧
      getOwn cfg "scale" = some (.str "showAll") := by
  obtain ⟨cfg, h, hget⟩ :=
    parseSettings_ordinary Static.ruffleSettings url Static_ruffleSettings_ordinary
  refine ⟨cfg, h, ?_⟩
  rw [hget]
  simp [Static.ruffleSettings, sharedSettings, firstStored, finalValue, JSValue.isNotNull]

/-- In neither script does a query change `allowNetworking`. -/
theorem FlashStatic_allowNetworking (url : URLSearchParams) :
    ∃ cfg, parseSettings FlashStatic.ruffleSettings url = .ok cfg ∧
      getOwn cfg "allowNetworking" = some (.str "none") := by
  obtain ⟨cfg, h, hget⟩ :=
    parseSettings_ordinary FlashStatic.ruffleSettings url FlashStatic_ruffleSettings_ordinary
  refine ⟨cfg, h, ?_⟩
  rw [hget]
  simp [FlashStatic.ruffleSettings, sharedSettings, firstStored, finalValue, JSValue.isNotNull]

theorem Static_allowNetworking (url : URLSearchParams) :
    ∃ cfg, parseSettings Static.ruffleSettings url = .ok cfg ∧
      getOwn cfg "allowNetworking" = some (.str "none") := by
  obtain ⟨cfg, h, hget⟩ :=
    parseSettings_ordinary Static.ruffleSettings url Static_ruffleSettings_ordinary
  refine ⟨cfg, h, ?_⟩
  rw [hget]
  simp [Static.ruffleSettings, sharedSettings, firstStored, finalValue, JSValue.isNotNull]

/-- The two lists store the same value under every name but `scale`. -/
theorem firstStored_same_but_scale (url : URLSearchParams) (k : String) (hk : k ≠ "scale") :
    firstStored url FlashStatic.ruffleSettings k = firstStored url Static.ruffleSettings k := by
  have hk1 : ¬ "scale" = k := fun e => hk e.symm
  simp [FlashStatic.ruffleSettings, Static.ruffleSettings, sharedSettings, firstStored, hk1]

/-- The two scripts take the same branch for every query. -/
theorem scriptPath_same (afterScheme : String → List Char → Bool) (url : URLSearchParams) :
    FlashStatic.scriptPath afterScheme url = Static.scriptPath afterScheme url := by
  obtain ⟨c1, h1, hu1⟩ := FlashStatic_ruffleConfig url
  obtain ⟨c2, h2, hu2⟩ := Static_ruffleConfig url
  obtain ⟨p1, hp1, hl1, hf1, he1⟩ :=
    topLevel_branches FlashStatic.ruffleSettings afterScheme url c1 h1
  obtain ⟨p2, hp2, hl2, hf2, he2⟩ :=
    topLevel_branches Static.ruffleSettings afterScheme url c2 h2
  rw [FlashStatic.scriptPath, Static.scriptPath, hp1, hp2]
  rw [hu1] at hl1 hf1 he1
  rw [hu2] at hl2 hf2 he2
  have : p1 = p2 := by
    cases p1 with
    | launch => exact (hl2.mpr (hl1.mp rfl)).symm
    | form => exact (hf2.mpr (hf1.mp rfl)).symm
    | error => exact (he2.mpr (he1.mp rfl)).symm
  rw [this]

end Flash

namespace Flash

/-- Claim C12 as it is stated fails: the settings the code marks as not
configurable are not the eight of the specification, in either script;
`?allowNetworking=all` leaves `allowNetworking` at `none` in both scripts, and
`?scale=noborder` leaves `scale` at `showAll` in `src/static/flash.js`. -/
theorem configurable_settings_differ_from_spec :
    notConfigurable FlashStatic.ruffleSettings ≠
      [ "allowScriptAccess", "backgroundColor", "favorFlash", "letterbox", "openUrlMode",
        "polyfills", "showSwfDownload", "showSplashScreen" ] ∧
    notConfigurable Static.ruffleSettings ≠
      [ "allowScriptAccess", "backgroundColor", "favorFlash", "letterbox", "openUrlMode",
        "polyfills", "showSwfDownload", "showSplashScreen" ] ∧
    (∃ cfg, parseSettings FlashStatic.ruffleSettings allowNetworkingQuery = .ok cfg ∧
      getOwn cfg "allowNetworking" = some (.str "none")) ∧
    (∃ cfg, parseSettings Static.ruffleSettings allowNetworkingQuery = .ok cfg ∧
      getOwn cfg "allowNetworking" = some (.str "none")) ∧
    (∃ cfg, parseSettings Static.ruffleSettings scaleQuery = .ok cfg ∧
      getOwn cfg "scale" = some (.str "showAll")) := by
  refine ⟨by decide, by decide, ⟨_, rfl, by decide⟩, ⟨_, rfl, by decide⟩, ⟨_, rfl, by decide⟩⟩

/-- Claim C12, amended: in each script `ruffleSettings` defines exactly the
fifteen names of the specification's list, in its order, with the stated kinds
and closed sets. The settings that are not configurable are the eight the
specification marks and `allowNetworking`, and in `src/static/flash.js` also
`scale`. So for every query `allowNetworking` resolves to `none` in both scripts
and `scale` to `showAll` in `src/static/flash.js`, while in
`src/flash/static/flash.js` `scale` resolves to a raw value of its set:
`?scale=noborder` gives `noborder` there. -/
theorem ruffleSettings_names_kinds_and_configurability (url : URLSearchParams) :
    namesAndKinds FlashStatic.ruffleSettings =
      specPlayerSettings.map (fun e => (e.1, e.2.1)) ∧
    namesAndKinds Static.ruffleSettings =
      specPlayerSettings.map (fun e => (e.1, e.2.1)) ∧
    FlashStatic.ruffleSettings.length = 15 ∧
    Static.ruffleSettings.length = 15 ∧
    notConfigurable FlashStatic.ruffleSettings =
      [ "allowNetworking", "allowScriptAccess", "backgroundColor", "favorFlash", "letterbox",
        "openUrlMode", "polyfills", "showSwfDownload", "showSplashScreen" ] ∧
    notConfigurable Static.ruffleSettings =
      [ "allowNetworking", "allowScriptAccess", "backgroundColor", "favorFlash", "letterbox",
        "openUrlMode", "polyfills", "scale", "showSwfDownload", "showSplashScreen" ] ∧
    (∃ cfg, parseSettings FlashStatic.ruffleSettings url = .ok cfg ∧
      getOwn cfg "allowNetworking" = some (.str "none")) ∧
    (∃ cfg, parseSettings Static.ruffleSettings url = .ok cfg ∧
      getOwn cfg "allowNetworking" = some (.str "none")) ∧
    (∃ cfg, parseSettings Static.ruffleSettings url = .ok cfg ∧
      getOwn cfg "scale" = some (.str "showAll")) ∧
    (∃ cfg, parseSettings FlashStatic.ruffleSettings url = .ok cfg ∧
      getOwn cfg "scale" = some (.str
        (match searchParamsGet url "scale" with
          | some raw =>
            if raw = "showAll" ∨ raw = "noborder" ∨ raw = "exactfit" ∨ raw = "noscale" then raw
            else "showAll"
          | none => "showAll"))) ∧
    (∃ cfg, parseSettings FlashStatic.ruffleSettings scaleQuery = .ok cfg ∧
      getOwn cfg "scale" = some (.str "noborder")) := by
  refine ⟨by decide, by decide, by decide, by decide, by decide, by decide,
    FlashStatic_allowNetworking url, Static_allowNetworking url, Static_scale url,
    FlashStatic_scale url, ⟨_, rfl, by decide⟩⟩

/-- Claim C14 as it is stated fails: for `?scale=noborder` the two scripts compute
different player configurations, `scale` being `noborder` in
`src/flash/static/flash.js` and `showAll` in `src/static/flash.js`. -/
theorem player_configurations_differ_for_scale :
    parseSettings FlashStatic.ruffleSettings scaleQuery ≠
      parseSettings Static.ruffleSettings scaleQuery ∧
    (∃ cfg, parseSettings FlashStatic.ruffleSettings scaleQuery = .ok cfg ∧
      getOwn cfg "scale" = some (.str "noborder")) ∧
    (∃ cfg, parseSettings Static.ruffleSettings scaleQuery = .ok cfg ∧
      getOwn cfg "scale" = some (.str "showAll")) := by
  refine ⟨by decide, ⟨_, rfl, by decide⟩, ⟨_, rfl, by decide⟩⟩

/-- Claim C14, amended: for every query the two scripts compute player
configurations that agree under every name but `scale` (which the query can set
in `src/flash/static/flash.js` only), the same page-behaviour mapping, the same
resolved `url` with the same `isValidUrl` result, and take the same one of the
three branches. -/
theorem scripts_agree_but_for_scale (afterScheme : String → List Char → Bool)
    (url : URLSearchParams) :
    (∃ cfg1 cfg2, parseSettings FlashStatic.ruffleSettings url = .ok cfg1 ∧
      parseSettings Static.ruffleSettings url = .ok cfg2 ∧
      (∀ k, k ≠ "scale" → getOwn cfg1 k = getOwn cfg2 k) ∧
      getOwn cfg2 "scale" = some (.str "showAll") ∧
      getOwn cfg1 "scale" = some (.str
        (match searchParamsGet url "scale" with
          | some raw =>
            if raw = "showAll" ∨ raw = "noborder" ∨ raw = "exactfit" ∨ raw = "noscale" then raw
            else "showAll"
          | none => "showAll")) ∧
      resolvedUrl cfg1 = resolvedUrl cfg2 ∧
      isValidUrl afterScheme (resolvedUrl cfg1) = isValidUrl afterScheme (resolvedUrl cfg2)) ∧
    parseSettings FlashStatic.uiSettings url = parseSettings Static.uiSettings url ∧
    FlashStatic.scriptPath afterScheme url = Static.scriptPath afterScheme url := by
  refine ⟨?_, rfl, scriptPath_same afterScheme url⟩
  obtain ⟨c1, h1, hget1⟩ :=
    parseSettings_ordinary FlashStatic.ruffleSettings url FlashStatic_ruffleSettings_ordinary
  obtain ⟨c2, h2, hget2⟩ :=
    parseSettings_ordinary Static.ruffleSettings url Static_ruffleSettings_ordinary
  have hsame : ∀ k, k ≠ "scale" → getOwn c1 k = getOwn c2 k := fun k hk => by
    rw [hget1, hget2, firstStored_same_but_scale url k hk]
  have hurl : resolvedUrl c1 = resolvedUrl c2 := by
    unfold resolvedUrl
    rw [hsame "url" (by decide)]
  obtain ⟨c2', h2', hs2⟩ := Static_scale url
  obtain ⟨c1', h1', hs1⟩ := FlashStatic_scale url
  rw [h2] at h2'
  rw [h1] at h1'
  cases h2'
  cases h1'
  exact ⟨c1, c2, h1, h2, hsame, hs2, hs1, hurl, by rw [hurl]⟩

end Flash

/-! ## `makeOptions` -/

namespace Flash

theorem string_length_pos (t : String) : t.length > 0 ↔ t ≠ "" := by
  obtain ⟨data⟩ := t
  cases data with
  | nil => decide
  | cons a rest =>
    constructor
    · intro _ h
      exact absurd (congrArg String.data h) (by simp)
    · intro _
      simp [String.length]

theorem label_length_pos (s : Setting) : s.label.length > 0 ↔ s.label ≠ "" :=
  string_length_pos s.label

/-- One turn of `makeOptions` throws exactly at a setting that reads `checked`,
and otherwise appends the option of a setting that gets one. -/
theorem makeOptionsStep_eq (forProperty : String) (createDiv : Bool) (node : List DomElement)
    (s : Setting) :
    makeOptionsStep forProperty createDiv node s =
      if readsChecked s then .error (.referenceError "checked is not defined")
      else .ok (node ++ (if getsOption s then optionNodes forProperty createDiv s else [])) := by
  unfold makeOptionsStep readsChecked getsOption
  by_cases hl : s.label.length > 0
  · have hne : s.label ≠ "" := (label_length_pos s).mp hl
    cases hd : s.defaultValue with
    | str v => simp [hl, hne, JSValue.isBoolean]
    | null => simp [hl, hne, JSValue.isBoolean]
    | bool b => cases b <;> simp [hl, hne, JSValue.isBoolean]
  · have he : s.label = "" := by
      by_contra hne
      exact hl ((label_length_pos s).mpr hne)
    simp [he]

/-- The loop of `makeOptions`: it ends without an exception exactly when no
setting reads `checked`, and then it has appended the options of the whole list;
in every case it has appended the options of the settings before the one at which
it stopped. -/
theorem makeOptions_loop (forProperty : String) (createDiv : Bool) (settings : List Setting)
    (node : List DomElement) :
    ((makeOptions forProperty createDiv node settings).2 = none ↔
      ∀ s ∈ settings, readsChecked s = false) ∧
    ((makeOptions forProperty createDiv node settings).2 = none →
      (makeOptions forProperty createDiv node settings).1 =
        node ++ optionsOf forProperty createDiv settings) ∧
    (∃ done rest, settings = done ++ rest ∧
      (makeOptions forProperty createDiv node settings).1 =
        node ++ optionsOf forProperty createDiv done) := by
  induction settings generalizing node with
  | nil =>
    refine ⟨by simp [makeOptions], by simp [makeOptions, optionsOf], [], [], rfl, ?_⟩
    simp [makeOptions, optionsOf]
  | cons s rest ih =>
    by_cases hc : readsChecked s = true
    · have hstep : makeOptions forProperty createDiv node (s :: rest) =
          (node, some (.referenceError "checked is not defined")) := by
        simp [makeOptions, makeOptionsStep_eq, hc]
      rw [hstep]
      refine ⟨?_, by simp, [], s :: rest, rfl, by simp [optionsOf]⟩
      constructor
      · intro h
        simp at h
      · intro h
        have := h s (List.mem_cons_self _ _)
        rw [hc] at this
        exact absurd this (by decide)
    · have hc' : readsChecked s = false := by simpa using hc
      have hstep : makeOptions forProperty createDiv node (s :: rest) =
          makeOptions forProperty createDiv
            (node ++ (if getsOption s then optionNodes forProperty createDiv s else [])) rest := by
        simp [makeOptions, makeOptionsStep_eq, hc']
      rw [hstep]
      obtain ⟨h1, h2, done, post, hsplit, h3⟩ :=
        ih (node ++ (if getsOption s then optionNodes forProperty createDiv s else []))
      refine ⟨?_, ?_, s :: done, post, by rw [hsplit]; rfl, ?_⟩
      · rw [h1]
        constructor
        · intro h t ht
          rcases List.mem_cons.mp ht with e | hm
          · rw [e]; exact hc'
          · exact h t hm
        · intro h t ht
          exact h t (List.mem_cons_of_mem _ ht)
      · intro hn
        rw [h2 hn]
        simp [optionsOf, List.append_assoc]
      · rw [h3]
        simp [optionsOf, List.append_assoc]

end Flash

namespace Flash

/-- Claim C15: on `uiSettings` `makeOptions` ends without an exception and appends
one option per setting, a label and a checkbox with the value `on` and the
setting's name, no setting there reaching the assignment of `checked`. For every
list of settings, every node and either value of `createDiv`, in both scripts,
`makeOptions` ends without an exception exactly when no setting with a label that
is not empty has the boolean default `true`; it then has appended the options of
the settings with such a label and a boolean default, and of no other; and when
it throws, it has appended those of such settings before the one at which it
stopped. -/
theorem makeOptions_raises_exactly_for_checked (node : List DomElement)
    (settings : List Setting) (createDiv : Bool) :
    FlashStatic.makeOptions [] FlashStatic.uiSettings true =
      ([ { tag := "div",
           props := [("id", .str "fitOptDiv"), ("className", .str "optDiv")],
           children :=
             [ { tag := "label",
                 props := [("htmlFor", .str "fitCheckbox"), ("id", .str "fitLabel"),
                   ("innerHTML", .str "Ajuster à l'écran"), ("className", .str "labelOpt")] },
               { tag := "input",
                 props := [("id", .str "fitCheckbox"), ("name", .str "fit"),
                   ("type", .str "checkbox"), ("value", .str "on"),
                   ("className", .str "checkboxOpt")] } ] },
         { tag := "div",
           props := [("id", .str "autoplayOptDiv"), ("className", .str "optDiv")],
           children :=
             [ { tag := "label",
                 props := [("htmlFor", .str "autoplayCheckbox"), ("id", .str "autoplayLabel"),
                   ("innerHTML", .str "Forcer l'AutoPlay"), ("className", .str "labelOpt")] },
               { tag := "input",
                 props := [("id", .str "autoplayCheckbox"), ("name", .str "autoplay"),
                   ("type", .str "checkbox"), ("value", .str "on"),
                   ("className", .str "checkboxOpt")] } ] } ], none) ∧
    Static.makeOptions [] Static.uiSettings true =
      ([ { tag := "div",
           props := [("id", .str "fitOptDiv"), ("className", .str "optDiv")],
           children :=
             [ { tag := "label",
                 props := [("for", .str "fitCheckbox"), ("id", .str "fitLabel"),
                   ("innerHTML", .str "Ajuster à l'écran"), ("className", .str "labelOpt")] },
               { tag := "input",
                 props := [("id", .str "fitCheckbox"), ("name", .str "fit"),
                   ("type", .str "checkbox"), ("value", .str "on"),
                   ("className", .str "checkboxOpt")] } ] },
         { tag := "div",
           props := [("id", .str "autoplayOptDiv"), ("className", .str "optDiv")],
           children :=
             [ { tag := "label",
                 props := [("for", .str "autoplayCheckbox"), ("id", .str "autoplayLabel"),
                   ("innerHTML", .str "Forcer l'AutoPlay"), ("className", .str "labelOpt")] },
               { tag := "input",
                 props := [("id", .str "autoplayCheckbox"), ("name", .str "autoplay"),
                   ("type", .str "checkbox"), ("value", .str "on"),
                   ("className", .str "checkboxOpt")] } ] } ], none) ∧
    (∀ s ∈ FlashStatic.uiSettings ++ Static.uiSettings, readsChecked s = false) ∧
    ((FlashStatic.makeOptions node settings createDiv).2 = none ↔
      ∀ s ∈ settings, ¬ (s.label ≠ "" ∧ s.defaultValue = .bool true)) ∧
    ((Static.makeOptions node settings createDiv).2 = none ↔
      ∀ s ∈ settings, ¬ (s.label ≠ "" ∧ s.defaultValue = .bool true)) ∧
    ((FlashStatic.makeOptions node settings createDiv).2 = none →
      (FlashStatic.makeOptions node settings createDiv).1 =
        node ++ optionsOf "htmlFor" createDiv settings) ∧
    ((Static.makeOptions node settings createDiv).2 = none →
      (Static.makeOptions node settings createDiv).1 =
        node ++ optionsOf "for" createDiv settings) ∧
    (∃ done rest, settings = done ++ rest ∧
      (FlashStatic.makeOptions node settings createDiv).1 =
        node ++ optionsOf "htmlFor" createDiv done) ∧
    (∃ done rest, settings = done ++ rest ∧
      (Static.makeOptions node settings createDiv).1 =
        node ++ optionsOf "for" createDiv done) := by
  have hiff : (∀ s ∈ settings, readsChecked s = false) ↔
      ∀ s ∈ settings, ¬ (s.label ≠ "" ∧ s.defaultValue = .bool true) := by
    constructor
    · intro h s hs hb
      have := h s hs
      simp [readsChecked, hb.1, hb.2] at this
    · intro h s hs
      by_contra hr
      have hr' : readsChecked s = true := by simpa using hr
      simp only [readsChecked, Bool.and_eq_true, decide_eq_true_eq] at hr'
      exact h s hs hr'
  obtain ⟨f1, f2, f3⟩ := makeOptions_loop "htmlFor" createDiv settings node
  obtain ⟨g1, g2, g3⟩ := makeOptions_loop "for" createDiv settings node
  exact ⟨by decide, by decide, by decide, f1.trans hiff, g1.trans hiff, f2, g2, f3, g3⟩

end Flash

/-! ## The player's load -/

namespace Flash

/-- The title after the file title is set: the file name, a dash and the base
title when the file name is not empty, and the title as it was otherwise. -/
theorem setFileTitle_title (baseTitle swf : String) (st : PageState) :
    (setFileTitle baseTitle swf st).title =
      if String.mk (afterLastSlash swf.toList) ≠ "" then
        String.mk (afterLastSlash swf.toList) ++ " - " ++ baseTitle
      else st.title := by
  unfold setFileTitle
  generalize String.mk (afterLastSlash swf.toList) = name
  by_cases h : name = ""
  · simp [h]
  · simp [h]

theorem setFileTitle_rest (baseTitle swf : String) (st : PageState) :
    (setFileTitle baseTitle swf st).container = st.container ∧
    (setFileTitle baseTitle swf st).loads = st.loads := by
  unfold setFileTitle
  generalize String.mk (afterLastSlash swf.toList) = name
  by_cases h : name = ""
  · simp [h]
  · simp [h]

/-- After whitespace the collapsed text does not begin with whitespace. -/
theorem dropWhile_collapse_true (s : List Char) :
    (collapseWhitespace true s).dropWhile isAsciiWhitespace = collapseWhitespace true s := by
  induction s with
  | nil => rfl
  | cons c rest ih =>
    by_cases hc : isAsciiWhitespace c = true
    · simp [collapseWhitespace, hc, ih]
    · simp [collapseWhitespace, hc, List.dropWhile]

theorem dropWhile_collapse_false (s : List Char) :
    (collapseWhitespace false s).dropWhile isAsciiWhitespace = collapseWhitespace true s := by
  cases s with
  | nil => rfl
  | cons c rest =>
    by_cases hc : isAsciiWhitespace c = true
    · have hsp : isAsciiWhitespace ' ' = true := by decide
      simp [collapseWhitespace, hc, List.dropWhile, hsp, dropWhile_collapse_true]
    · simp [collapseWhitespace, hc, List.dropWhile]

theorem stripAndCollapse_eq (s : List Char) :
    stripAndCollapse s = stripTrailing (collapseWhitespace true s) := by
  rw [stripAndCollapse, dropWhile_collapse_false]

theorem collapse_append (w : Bool) (a t : List Char) :
    collapseWhitespace w (a ++ t) =
      collapseWhitespace w a ++ collapseWhitespace (endsInWhitespace w a) t := by
  induction a generalizing w with
  | nil => rfl
  | cons c rest ih =>
    by_cases hc : isAsciiWhitespace c = true
    · cases w <;> simp [collapseWhitespace, endsInWhitespace, hc, ih]
    · simp [collapseWhitespace, endsInWhitespace, hc, ih]

theorem collapse_open_end (w : Bool) (n : List Char) :
    collapseWhitespace w n ++ (if endsInWhitespace w n then [] else [' ']) =
      if w = true ∧ stripTrailing (collapseWhitespace w n) = [] then []
      else stripTrailing (collapseWhitespace w n) ++ [' '] := by
  induction n generalizing w with
  | nil => cases w <;> simp [collapseWhitespace, endsInWhitespace, stripTrailing]
  | cons c rest ih =>
    by_cases hc : isAsciiWhitespace c = true
    · cases w
      · have hsp : isAsciiWhitespace ' ' = true := by decide
        have hi := ih true
        simp only [true_and] at hi
        have hl : collapseWhitespace false (c :: rest) = ' ' :: collapseWhitespace true rest := by
          simp [collapseWhitespace, hc]
        have hr : endsInWhitespace false (c :: rest) = endsInWhitespace true rest := by
          simp [endsInWhitespace, hc]
        rw [hl, hr, List.cons_append, hi]
        by_cases he : stripTrailing (collapseWhitespace true rest) = []
        · simp [stripTrailing, hsp, he]
        · simp [stripTrailing, hsp, he]
      · simpa [collapseWhitespace, endsInWhitespace, hc] using ih true
    · have := ih false
      simp at this
      simp [collapseWhitespace, endsInWhitespace, hc, stripTrailing, this]

theorem stripTrailing_append_cons (u v : List Char) (c : Char) (hc : isAsciiWhitespace c = false) :
    stripTrailing (u ++ c :: v) = u ++ c :: stripTrailing v := by
  induction u with
  | nil => simp [stripTrailing, hc]
  | cons d rest ih => simp [stripTrailing, ih]

/-- Stripping and collapsing a text, a dash between spaces and another text. -/
theorem stripAndCollapse_dash (n b : List Char) :
    stripAndCollapse (n ++ ' ' :: '-' :: ' ' :: b) =
      (if stripAndCollapse n = [] then [] else stripAndCollapse n ++ [' ']) ++
        '-' :: (if stripAndCollapse b = [] then [] else ' ' :: stripAndCollapse b) := by
  have hsp : isAsciiWhitespace ' ' = true := by decide
  have hd : isAsciiWhitespace '-' = false := by decide
  have hmid : ∀ e : Bool, collapseWhitespace e (' ' :: '-' :: ' ' :: b) =
      (if e then [] else [' ']) ++ '-' :: ' ' :: collapseWhitespace true b := by
    intro e
    cases e <;> simp [collapseWhitespace, hsp, hd]
  have hopen := collapse_open_end true n
  simp only [true_and] at hopen
  rw [stripAndCollapse_eq, stripAndCollapse_eq, stripAndCollapse_eq, collapse_append, hmid,
    ← List.append_assoc, hopen, stripTrailing_append_cons _ _ _ hd]
  congr 2
  by_cases he : stripTrailing (collapseWhitespace true b) = []
  · simp [stripTrailing, hsp, he]
  · simp [stripTrailing, hsp, he]

/-- A text followed by the dash and `b` reads like `Erreur` followed by them
exactly when the text itself reads `Erreur`. -/
theorem stripAndCollapse_dash_eq_iff (n b : List Char) :
    stripAndCollapse (n ++ ' ' :: '-' :: ' ' :: b) =
        stripAndCollapse ("Erreur".toList ++ ' ' :: '-' :: ' ' :: b) ↔
      stripAndCollapse n = "Erreur".toList := by
  rw [stripAndCollapse_dash, stripAndCollapse_dash]
  have he : stripAndCollapse "Erreur".toList = "Erreur".toList := by decide
  rw [he]
  constructor
  · intro h
    have h1 := List.append_cancel_right h
    by_cases hn : stripAndCollapse n = []
    · rw [if_pos hn] at h1
      exact absurd h1 (by decide)
    · rw [if_neg hn] at h1
      have h2 : (if "Erreur".toList = [] then [] else "Erreur".toList ++ [' ']) =
          "Erreur".toList ++ [' '] := by decide
      rw [h2] at h1
      exact List.append_cancel_right h1
  · intro h
    rw [h]

/-- A file title reads as the error title exactly when the file name, its ASCII
whitespace stripped, is `Erreur`. -/
theorem readTitle_file_title (baseTitle name : String) :
    readTitle (name ++ " - " ++ baseTitle) = readTitle (errorTitle baseTitle) ↔
      readTitle name = "Erreur" := by
  have h1 : (name ++ " - " ++ baseTitle).toList =
      name.toList ++ ' ' :: '-' :: ' ' :: baseTitle.toList := by
    simp [String.toList, String.data_append]
  have h2 : (errorTitle baseTitle).toList =
      "Erreur".toList ++ ' ' :: '-' :: ' ' :: baseTitle.toList := by
    unfold errorTitle
    simp [String.toList, String.data_append]
  unfold readTitle
  rw [h1, h2]
  constructor
  · intro h
    exact String.ext ((stripAndCollapse_dash_eq_iff _ _).mp (congrArg String.data h))
  · intro h
    exact congrArg String.mk ((stripAndCollapse_dash_eq_iff _ _).mpr (congrArg String.data h))

/-- What the page shows once the error title is assigned: `Erreur -`, followed
by a space and the base title as it reads when that is not empty. -/
theorem readTitle_errorTitle (baseTitle : String) :
    readTitle (errorTitle baseTitle) =
      String.mk ("Erreur -".toList ++
        (if stripAndCollapse baseTitle.toList = [] then []
         else ' ' :: stripAndCollapse baseTitle.toList)) := by
  have h2 : (errorTitle baseTitle).toList =
      "Erreur".toList ++ ' ' :: '-' :: ' ' :: baseTitle.toList := by
    unfold errorTitle
    simp [String.toList, String.data_append]
  unfold readTitle
  rw [h2, stripAndCollapse_dash]
  have he : stripAndCollapse "Erreur".toList = "Erreur".toList := by decide
  rw [he]
  rfl

/-- What follows the last slash has no slash, and the text is it alone or ends
with a slash and it. -/
theorem afterLastSlash_spec (s : List Char) :
    '/' ∉ afterLastSlash s ∧
      (s = afterLastSlash s ∨ ∃ before, s = before ++ '/' :: afterLastSlash s) := by
  induction s with
  | nil => simp [afterLastSlash]
  | cons c rest ih =>
    by_cases hm : '/' ∈ rest
    · have hc : afterLastSlash (c :: rest) = afterLastSlash rest := by simp [afterLastSlash, hm]
      rw [hc]
      refine ⟨ih.1, Or.inr ?_⟩
      rcases ih.2 with h | ⟨before, h⟩
      · exact absurd (h ▸ hm) ih.1
      · exact ⟨c :: before, by rw [List.cons_append, ← h]⟩
    · by_cases hc : c = '/'
      · have : afterLastSlash (c :: rest) = rest := by simp [afterLastSlash, hm, hc]
        rw [this]
        exact ⟨hm, Or.inr ⟨[], by simp [hc]⟩⟩
      · have : afterLastSlash (c :: rest) = c :: rest := by simp [afterLastSlash, hm, hc]
        rw [this]
        refine ⟨?_, Or.inl rfl⟩
        intro h
        rcases List.mem_cons.mp h with e | e
        · exact hc e.symm
        · exact hm e

/-- No handler of `src/flash/static/flash.js` calls `player.load`. -/
theorem FlashStatic_runEvents_loads (baseTitle swf : String) (events : List PlayerEvent)
    (st : PageState) :
    (runEvents (FlashStatic.onPlayerEvent baseTitle swf) events st).loads = st.loads := by
  induction events generalizing st with
  | nil => rfl
  | cons e rest ih =>
    rw [runEvents, ih]
    cases e
    · exact (setFileTitle_rest baseTitle swf st).2
    · rfl
    · rfl

/-- No handler of `src/static/flash.js` calls `player.load`. -/
theorem Static_runEvents_loads (baseTitle swf : String) (events : List PlayerEvent)
    (st : PageState) :
    (runEvents (Static.onPlayerEvent baseTitle swf) events st).loads = st.loads := by
  induction events generalizing st with
  | nil => rfl
  | cons e rest ih =>
    rw [runEvents, ih]
    cases e
    · rfl
    · exact (setFileTitle_rest baseTitle swf st).2
    · rfl

end Flash

namespace Flash

/-- Claim C13 as it is stated fails. In `src/static/flash.js` a rejected load
changes nothing: the page keeps the base title, not the error title, and the
container holds the player only. And a load that succeeds does leave the page
with the error title when the file is named `Erreur`, as for
`?url=https://example.org/Erreur`, in both scripts, also with whitespace after
the name. -/
theorem load_failure_is_silent_in_static_script :
    Static.onPlayerEvent "Lecteur Flash" "https://example.org/a.swf" .rejected
        (Static.onWindowLoad ⟨"Lecteur Flash", [], 0⟩) =
      ⟨"Lecteur Flash", [playerElement], 1⟩ ∧
    readTitle (errorTitle "Lecteur Flash") = "Erreur - Lecteur Flash" ∧
    documentTitle (Static.onPlayerEvent "Lecteur Flash" "https://example.org/a.swf" .rejected
        (Static.onWindowLoad ⟨"Lecteur Flash", [], 0⟩)) = "Lecteur Flash" ∧
    FlashStatic.scriptPath acceptRest erreurQuery = .ok .launch ∧
    FlashStatic.scriptPath acceptRest erreurSpaceQuery = .ok .launch ∧
    documentTitle
        (FlashStatic.onPlayerEvent "Lecteur Flash" "https://example.org/Erreur" .loadedmetadata
          (FlashStatic.onWindowLoad ⟨"Lecteur Flash", [], 0⟩)) =
      readTitle (errorTitle "Lecteur Flash") ∧
    documentTitle
        (Static.onPlayerEvent "Lecteur Flash" "https://example.org/Erreur" .fulfilled
          (Static.onWindowLoad ⟨"Lecteur Flash", [], 0⟩)) =
      readTitle (errorTitle "Lecteur Flash") ∧
    documentTitle
        (FlashStatic.onPlayerEvent "Lecteur Flash" "https://example.org/Erreur " .loadedmetadata
          (FlashStatic.onWindowLoad ⟨"Lecteur Flash", [], 0⟩)) =
      readTitle (errorTitle "Lecteur Flash") := by
  decide

/-- Claim C13, amended: on the launch branch of `src/flash/static/flash.js` a
rejected load assigns `Erreur - ` followed by the base title to the title, so
that the page shows the error title, and inserts the error message as the first
child of the container; in `src/static/flash.js` a rejected load leaves the title
and the container as they are. In both scripts `player.load` is called once,
whatever the player reports afterwards. A load that succeeds leaves the container
alone; the handler that sets the title (the listener of `loadedmetadata` in the
first script, the `then` handler in the second) assigns the file name, what
follows the last slash of the url, followed by ` - ` and the base title when the
file name is not empty, and changes nothing otherwise; the page then shows the
error title exactly when the file name, its ASCII whitespace stripped, is
`Erreur`. -/
theorem load_outcome_handlers (baseTitle swf : String) (st : PageState)
    (events : List PlayerEvent) :
    FlashStatic.onPlayerEvent baseTitle swf .rejected st =
      { title := errorTitle baseTitle, container := FlashStatic.epicFail :: st.container,
        loads := st.loads } ∧
    documentTitle (FlashStatic.onPlayerEvent baseTitle swf .rejected st) =
      String.mk ("Erreur -".toList ++
        (if stripAndCollapse baseTitle.toList = [] then []
         else ' ' :: stripAndCollapse baseTitle.toList)) ∧
    Static.onPlayerEvent baseTitle swf .rejected st = st ∧
    (runEvents (FlashStatic.onPlayerEvent baseTitle swf) events
        (FlashStatic.onWindowLoad st)).loads = st.loads + 1 ∧
    (runEvents (Static.onPlayerEvent baseTitle swf) events
        (Static.onWindowLoad st)).loads = st.loads + 1 ∧
    FlashStatic.onPlayerEvent baseTitle swf .fulfilled st = st ∧
    Static.onPlayerEvent baseTitle swf .loadedmetadata st = st ∧
    FlashStatic.onPlayerEvent baseTitle swf .loadedmetadata st =
      (if fileName swf ≠ "" then { st with title := fileName swf ++ " - " ++ baseTitle }
       else st) ∧
    Static.onPlayerEvent baseTitle swf .fulfilled st =
      (if fileName swf ≠ "" then { st with title := fileName swf ++ " - " ++ baseTitle }
       else st) ∧
    ('/' ∉ (fileName swf).toList ∧
      (swf.toList = (fileName swf).toList ∨
        ∃ before, swf.toList = before ++ '/' :: (fileName swf).toList)) ∧
    (fileName swf ≠ "" →
      ((documentTitle (FlashStatic.onPlayerEvent baseTitle swf .loadedmetadata st) =
          readTitle (errorTitle baseTitle) ↔ readTitle (fileName swf) = "Erreur") ∧
       (documentTitle (Static.onPlayerEvent baseTitle swf .fulfilled st) =
          readTitle (errorTitle baseTitle) ↔ readTitle (fileName swf) = "Erreur"))) ∧
    readTitle " \x0c Erreur \t\r\n -  Lecteur\x0cFlash\n" = "Erreur - Lecteur Flash" := by
  have hset : setFileTitle baseTitle swf st =
      (if fileName swf ≠ "" then { st with title := fileName swf ++ " - " ++ baseTitle }
       else st) := rfl
  refine ⟨rfl, readTitle_errorTitle baseTitle, rfl, ?_, ?_, rfl, rfl, hset, hset,
    afterLastSlash_spec swf.toList, ?_, by decide⟩
  · rw [FlashStatic_runEvents_loads]
    rfl
  · rw [Static_runEvents_loads]
    rfl
  · intro hn
    have ht : documentTitle (setFileTitle baseTitle swf st) =
        readTitle (fileName swf ++ " - " ++ baseTitle) := by
      rw [hset, if_pos hn]
      rfl
    exact ⟨by
        show documentTitle (setFileTitle baseTitle swf st) = _ ↔ _
        rw [ht]
        exact readTitle_file_title baseTitle (fileName swf),
      by
        show documentTitle (setFileTitle baseTitle swf st) = _ ↔ _
        rw [ht]
        exact readTitle_file_title baseTitle (fileName swf)⟩

/-- The statement on loads that succeed, at `https://example.org/Erreur ` with
the base title `Lecteur Flash`: the file name `Erreur `, with a space after it,
is not empty and reads `Erreur`, so the page shows the error title after the
load succeeded, in both scripts. -/
theorem load_outcome_handlers_witness :
    fileName "https://example.org/Erreur " ≠ "" ∧
    readTitle (fileName "https://example.org/Erreur ") = "Erreur" ∧
    ((documentTitle
          (FlashStatic.onPlayerEvent "Lecteur Flash" "https://example.org/Erreur " .loadedmetadata
            ⟨"Lecteur Flash", [playerElement], 1⟩) =
        readTitle (errorTitle "Lecteur Flash") ↔
          readTitle (fileName "https://example.org/Erreur ") = "Erreur") ∧
     (documentTitle
          (Static.onPlayerEvent "Lecteur Flash" "https://example.org/Erreur " .fulfilled
            ⟨"Lecteur Flash", [playerElement], 1⟩) =
        readTitle (errorTitle "Lecteur Flash") ↔
          readTitle (fileName "https://example.org/Erreur ") = "Erreur")) :=
  ⟨by decide, by decide,
    (load_outcome_handlers "Lecteur Flash" "https://example.org/Erreur "
      ⟨"Lecteur Flash", [playerElement], 1⟩ []).2.2.2.2.2.2.2.2.2.2.1 (by decide)⟩

end Flash
